import Mathlib

/-!
The program ftp.go: the per-connection session of a minimal FTP server

A shallow embedding of `main.go`.  Go strings are modelled as lists of
characters, the control connection as a trace of events, and every answer
of the operating system (filesystem, network) during one command as an
`Outcome` chosen by the environment.

The first part models the pieces of the Go standard library the session
relies on (`strings.Split`, `strings.ToUpper`, `strconv.Atoi`, `path.Clean`,
`path.Join`), following the library sources.  The host is taken to have
64-bit `int` and `/` as path separator.

A handler returns the next state together with the events it caused, in
the order in which the Go code causes them (deferred calls last).  A nil
dereference is the event `crash`, after which nothing more happens.
-/

namespace FtpGo

/-- A Go string. -/
abbrev Str := List Char

/-! ## Go standard library -/

/-- Go `strings.Split(s, sep)` for a one-byte separator. -/
def stringsSplit (s : Str) (sep : Char) : List Str :=
  s.splitOn sep

/-- Go `strings.Join(elems, sep)` for a one-byte separator. -/
def stringsJoin (elems : List Str) (sep : Char) : Str :=
  [sep].intercalate elems

/-- Go `unicode.ToUpper` as far as it matters for a table of ASCII keys:
the ASCII letters, and the two other runes whose upper case is an ASCII
letter (U+0131 dotless i, U+017F long s).  Every other rune is mapped by
Go to a rune outside `A`..`Z` and is left as it is here. -/
def toUpperRune (c : Char) : Char :=
  if 'a' ≤ c ∧ c ≤ 'z' then Char.ofNat (c.toNat - 32)
  else if c = Char.ofNat 0x131 then 'I'
  else if c = Char.ofNat 0x17F then 'S'
  else c

/-- Go `strings.ToUpper`. -/
def stringsToUpper (s : Str) : Str :=
  s.map toUpperRune

/-- Go `int` on a 64-bit platform: the value of an arithmetic expression
wraps around modulo `2^64` into `[-2^63, 2^63)`. -/
def wrapInt (x : Int) : Int :=
  (x + 2 ^ 63) % 2 ^ 64 - 2 ^ 63

/-- A decimal digit. -/
def isDigit (c : Char) : Bool :=
  decide ('0' ≤ c ∧ c ≤ '9')

/-- The value of a string of decimal digits. -/
def digitsValue (ds : Str) : Nat :=
  ds.foldl (fun n d => n * 10 + (d.toNat - 48)) 0

/-- Go `strconv.Atoi`: an optional sign, then one or more decimal digits,
and the value has to fit in an `int`; `none` is the error result. -/
def Atoi (s : Str) : Option Int :=
  match s with
  | [] => none
  | c :: t =>
    let neg := decide (c = '-')
    let ds := if c = '-' ∨ c = '+' then t else s
    if ds = [] then none
    else if ds.all isDigit then
      let v : Int := if neg then -(digitsValue ds : Int) else (digitsValue ds : Int)
      if -(2 ^ 63) ≤ v ∧ v < 2 ^ 63 then some v else none
    else none

/-- Decimal rendering of an integer, as `%d` of `fmt.Sprintf` does. -/
def itoa (n : Int) : Str :=
  if n < 0 then '-' :: Nat.toDigits 10 n.natAbs else Nat.toDigits 10 n.toNat

/-- The inner loop of the `..` case of `path.Clean`:
`for out.w > dotdot && out.index(out.w) != '/' { out.w-- }`. -/
def backtrack (buf : Str) (dotdot : Nat) : Nat → Nat
  | 0 => 0
  | w + 1 =>
    if w + 1 > dotdot ∧ buf.getD (w + 1) ' ' ≠ '/' then backtrack buf dotdot w
    else w + 1

/-- The main loop of Go `path.Clean`: `rest` is the unread part of the
path (`path[r:]`), `out` the bytes written so far (`out.w` is its length)
and `dotdot` the index where `..` must stop.  Every turn consumes at least
one byte of `rest`, so `fuel = len(path)` turns are enough. -/
def cleanLoop (rooted : Bool) : Nat → Str → Str → Nat → Str
  | 0, _, out, _ => out
  | _ + 1, [], out, _ => out
  | fuel + 1, c :: t, out, dotdot =>
    if c = '/' then
      -- empty path element
      cleanLoop rooted fuel t out dotdot
    else if c = '.' ∧ (t = [] ∨ t.head? = some '/') then
      -- . element
      cleanLoop rooted fuel t out dotdot
    else if c = '.' ∧ t.head? = some '.' ∧ (t.tail = [] ∨ t.tail.head? = some '/') then
      -- .. element: remove to last /
      if out.length > dotdot then
        cleanLoop rooted fuel t.tail (out.take (backtrack out dotdot (out.length - 1))) dotdot
      else if !rooted then
        let out1 := if out.length > 0 then out ++ ['/'] else out
        cleanLoop rooted fuel t.tail (out1 ++ ['.', '.']) (out1.length + 2)
      else
        cleanLoop rooted fuel t.tail out dotdot
    else
      -- real path element: add slash if needed, copy element
      let out1 :=
        if (rooted ∧ out.length ≠ 1) ∨ (!rooted ∧ out.length ≠ 0) then out ++ ['/'] else out
      cleanLoop rooted fuel ((c :: t).dropWhile (· ≠ '/'))
        (out1 ++ (c :: t).takeWhile (· ≠ '/')) dotdot

/-- Go `path.Clean` (and `filepath.Clean` on a host whose separator is
`/`): the shortest path name equivalent to `path` by purely lexical
processing. -/
def Clean (path : Str) : Str :=
  if path = [] then ['.']
  else
    let rooted := decide (path.head? = some '/')
    let out :=
      if rooted then cleanLoop true path.length path.tail ['/'] 1
      else cleanLoop false path.length path [] 0
    if out.length = 0 then ['.'] else out

/-- Go `path.Join`: joins the non-empty elements with `/` and cleans the
result; all elements empty gives the empty string. -/
def Join (elem : List Str) : Str :=
  if (elem.map List.length).sum = 0 then []
  else
    Clean (elem.foldl
      (fun buf e =>
        if buf ≠ [] ∨ e ≠ [] then (if buf ≠ [] then buf ++ ['/'] else buf) ++ e else buf)
      [])

/-! ## Data model (`main.go`, lines 21-41) -/

/-- One record of the credential table. -/
structure userConfig where
  Password : Str
  HomeDir : Str
  deriving DecidableEq, Repr

/-- A listening socket (`net.Listener`): an identity and the port it is
bound to. -/
structure Listener where
  id : Nat
  port : Nat
  deriving DecidableEq, Repr

/-- The session state.  `conn` is represented by the trace of events,
`commands` by `buildCommandMap`; `config` is an association list read as a
map (the first entry of a key counts). -/
structure FTPConn where
  username : Str
  running : Bool
  homeDir : Str
  currDir : Str
  identified : Bool
  pasv : Bool
  dataConn : Option Nat
  dataHost : Str
  dataPort : Int
  listener : Option Listener
  config : List (Str × userConfig)
  renameTempPath : Str
  deriving DecidableEq, Repr

/-- What a session does to the outside world, in order. -/
inductive Event where
  /-- A reply line on the control connection (`sendMsg`). -/
  | reply (code : Int) (msg : Str)
  /-- An error written to the local log (`log.Println(err)`). -/
  | logErr
  | stat (path : Str)
  | rename (src dst : Str)
  | remove (path : Str)
  | mkdirAll (path : Str)
  | readDir (path : Str)
  | openFile (path : Str)
  | createFile (path : Str)
  | closeFile
  /-- The call `io.Copy(dataConn, f)` of RETR. -/
  | copyToData (conn : Nat)
  /-- The call `io.Copy(f, dataConn)` of STOR. -/
  | copyFromData (conn : Nat)
  | dataWrite (conn : Nat) (msg : Str)
  | dataClose (conn : Nat)
  | accept (l : Listener)
  | dial (raddr : Str)
  | externalIP
  | listen (laddr : Str)
  | listenerClose (l : Listener)
  /-- The control connection is closed. -/
  | connClose
  /-- A nil dereference: the worker (and with it the process) dies. -/
  | crash
  deriving DecidableEq, Repr

/-- The answer of `os.Stat`. -/
inductive StatResult where
  | ok (isDir : Bool)
  | notExist
  | otherErr
  deriving DecidableEq, Repr

/-- One entry of `ioutil.ReadDir`; `modTime` is the modification time
already formatted by the age rule of `handleLIST` (lines 322-326). -/
structure FileInfo where
  name : Str
  size : Int
  isDir : Bool
  modTime : Str
  deriving DecidableEq, Repr

/-- The answers of the operating system during one command.  Every handler
makes each kind of call at most once, so one answer per kind describes any
behaviour of the filesystem and the network.  `renameOk`, `removeOk` and
`mkdirOk` say whether `os.Rename`, `os.Remove` and `os.MkdirAll` succeed. -/
structure Outcome where
  stat : StatResult
  renameOk : Bool
  removeOk : Bool
  mkdirOk : Bool
  externalIP : Option Str
  listen : Option Listener
  accept : Option Nat
  dial : Option Nat
  readDir : Option (List FileInfo)
  openOk : Bool
  createOk : Bool
  copyOk : Bool
  deriving DecidableEq, Repr

/-- A handler gives the next state and the events it caused. -/
abbrev Result := FTPConn × List Event

/-- The type of the entries of the command table (`func(string)` on the
connection). -/
abbrev Handler := FTPConn → Str → Outcome → Result

/-! ## Operations (`main.go`, lines 87-477) -/

/-- `NewFTPConn` (lines 87-97); `getwd` is the answer of `os.Getwd`. -/
def NewFTPConn (config : List (Str × userConfig)) (getwd : Option Str) : FTPConn :=
  { username := [], running := true, homeDir := getwd.getD ['.'], currDir := ['/'],
    identified := false, pasv := false, dataConn := none, dataHost := [], dataPort := 0,
    listener := none, config := config, renameTempPath := [] }

/-- `sendMsg` (lines 141-147): one reply line; a failed write is only
logged. -/
def sendMsg (code : Int) (msg : Str) : List Event :=
  [Event.reply code msg]

/-- The text `sendMsg` writes on the control connection: `"%d %s\r\n"`. -/
def wire (code : Int) (msg : Str) : Str :=
  itoa code ++ ' ' :: msg ++ ['\r', '\n']

/-- `handleErr` (lines 449-452). -/
def handleErr (code : Int) (msg : Str) : List Event :=
  Event.logErr :: sendMsg code msg

/-- `parsePath` (lines 149-163): the virtual path and the concrete path
of an argument.  `filepath.Clean` is `Clean`: the host separates with `/`. -/
def parsePath (c : FTPConn) (arg : Str) : Str × Str :=
  let arg := if arg = [] then ['.'] else arg
  let arg := if arg.head? ≠ some '/' then Join [c.currDir, arg] else arg
  let arg := Clean arg
  let loc := Join [c.homeDir, arg]
  let remote := if arg = ['.'] then ['/'] else arg
  (remote, loc)

/-- `closeDataConn` (lines 184-189). -/
def closeDataConn (c : FTPConn) : Result :=
  match c.dataConn with
  | some d => ({ c with dataConn := none }, [Event.dataClose d])
  | none => (c, [])

/-- How `dataConnConn` ends. -/
inductive ConnResult where
  | ok
  | err
  /-- `Accept` called on a nil listener. -/
  | crash
  deriving DecidableEq, Repr

/-- `dataConnConn` (lines 165-182). -/
def dataConnConn (c : FTPConn) (o : Outcome) : FTPConn × List Event × ConnResult :=
  let (c1, e1) := closeDataConn c
  if c1.pasv then
    match c1.listener with
    | none => (c1, e1, ConnResult.crash)
    | some l =>
      match o.accept with
      | none => (c1, e1 ++ [Event.accept l], ConnResult.err)
      | some d => ({ c1 with dataConn := some d }, e1 ++ [Event.accept l], ConnResult.ok)
  else
    let raddr := c1.dataHost ++ ':' :: itoa c1.dataPort
    match o.dial with
    | none => (c1, e1 ++ [Event.dial raddr], ConnResult.err)
    | some d => ({ c1 with dataConn := some d }, e1 ++ [Event.dial raddr], ConnResult.ok)

/-- `handleSecurity` (lines 191-200): the login check around a handler. -/
def handleSecurity (f : Handler) : Handler :=
  fun c arg o =>
    if c.identified then f c arg o
    else (c, sendMsg 530 "Not logged in".toList)

/-- `handleUSER` (lines 202-216). -/
def handleUSER (c : FTPConn) (arg : Str) : Result :=
  match c.config.lookup arg with
  | some uc =>
    let c1 := { c with username := arg }
    if arg = "anonymous".toList then
      ({ c1 with identified := true, homeDir := uc.HomeDir }, sendMsg 230 "OK".toList)
    else
      (c1, sendMsg 331 "Need password".toList)
  | none =>
    ({ c with running := false }, sendMsg 550 "Invalid User".toList)

/-- The value of `config[name]`: a missing key gives the zero record. -/
def configAt (c : FTPConn) (name : Str) : userConfig :=
  (c.config.lookup name).getD { Password := [], HomeDir := [] }

/-- `handlePASS` (lines 218-227). -/
def handlePASS (c : FTPConn) (arg : Str) : Result :=
  if arg = (configAt c c.username).Password then
    ({ c with homeDir := (configAt c c.username).HomeDir, identified := true },
      sendMsg 230 "OK".toList)
  else
    ({ c with running := false }, sendMsg 530 "Password is not corrected".toList)

/-- `handleCWD` (lines 229-243). -/
def handleCWD (c : FTPConn) (arg : Str) (o : Outcome) : Result :=
  let (remote, loc) := parsePath c arg
  match o.stat with
  | StatResult.ok isDir =>
    if isDir then
      ({ c with currDir := remote },
        Event.stat loc :: sendMsg 250 "Working directory changed".toList)
    else
      (c, Event.stat loc :: sendMsg 500 "Change directory failed!".toList)
  | _ => (c, Event.stat loc :: Event.logErr :: sendMsg 500 "Change directory failed!".toList)

/-- `handleXCWD` (lines 245-247). -/
def handleXCWD (c : FTPConn) (arg : Str) (o : Outcome) : Result :=
  handleCWD c arg o

/-- `handleCDUP` (lines 249-251). -/
def handleCDUP (c : FTPConn) (_arg : Str) (o : Outcome) : Result :=
  handleCWD c "..".toList o

/-- `handleRNFR` (lines 253-257). -/
def handleRNFR (c : FTPConn) (arg : Str) : Result :=
  let (remote, loc) := parsePath c arg
  ({ c with renameTempPath := loc }, sendMsg 350 ("rename from ".toList ++ remote))

/-- `handleRNTO` (lines 259-263). -/
def handleRNTO (c : FTPConn) (arg : Str) : Result :=
  let (remote, loc) := parsePath c arg
  (c, Event.rename c.renameTempPath loc :: sendMsg 250 ("rename to ".toList ++ remote))

/-- `handleDELE` (lines 265-273). -/
def handleDELE (c : FTPConn) (arg : Str) (o : Outcome) : Result :=
  let loc := (parsePath c arg).2
  if o.stat = StatResult.notExist then
    (c, Event.stat loc :: sendMsg 450 "File does not exist".toList)
  else
    (c, Event.stat loc :: Event.remove loc :: sendMsg 250 "File deleted".toList)

/-- `handleRMD` (lines 275-283). -/
def handleRMD (c : FTPConn) (arg : Str) (o : Outcome) : Result :=
  let loc := (parsePath c arg).2
  if o.stat = StatResult.notExist then
    (c, Event.stat loc :: sendMsg 500 "Directory does not exist".toList)
  else
    (c, Event.stat loc :: Event.remove loc :: sendMsg 250 "OK".toList)

/-- `handleMKD` (lines 285-293). -/
def handleMKD (c : FTPConn) (arg : Str) (o : Outcome) : Result :=
  let loc := (parsePath c arg).2
  if o.stat = StatResult.notExist then
    (c, Event.stat loc :: Event.mkdirAll loc ::
      sendMsg 257 ('"' :: arg ++ "\" directory created".toList))
  else
    (c, Event.stat loc :: sendMsg 500 "Folder is already existed".toList)

/-- `handleXMKD` (lines 295-297). -/
def handleXMKD (c : FTPConn) (arg : Str) (o : Outcome) : Result :=
  handleMKD c arg o

/-- `handlePWD` (lines 299-302). -/
def handlePWD (c : FTPConn) (arg : Str) : Result :=
  (c, sendMsg 257 ('"' :: (parsePath c arg).1 ++ ['"']))

/-- One line of the listing (lines 312, 320-333): the format
`"%s%s%s------  %d %s  %s  %d  %s %s\r\n"`. -/
def listLine (info : FileInfo) : Str :=
  (if info.isDir then "d".toList else "-".toList) ++ "rw------  1 0  0  ".toList ++
    itoa info.size ++ "  ".toList ++ info.modTime ++ ' ' :: info.name ++ ['\r', '\n']

/-- `handleLIST` (lines 304-337). -/
def handleLIST (c : FTPConn) (_arg : Str) (o : Outcome) : Result :=
  match dataConnConn c o with
  | (c1, e1, ConnResult.crash) => (c1, e1 ++ [Event.crash])
  | (c1, e1, ConnResult.err) => (c1, e1 ++ handleErr 500 "List directory failed".toList)
  | (c1, e1, ConnResult.ok) =>
    let loc := (parsePath c1 c1.currDir).2
    let body :=
      match o.readDir with
      | none => Event.readDir loc :: handleErr 500 "List directory failed".toList
      | some infos =>
        Event.readDir loc ::
          (infos.map (fun info => Event.dataWrite (c1.dataConn.getD 0) (listLine info)) ++
            sendMsg 226 "Limit".toList)
    let (c2, e2) := closeDataConn c1
    (c2, e1 ++ sendMsg 125 "OK".toList ++ body ++ e2)

/-- `handleQUIT` (lines 339-345). -/
def handleQUIT (c : FTPConn) (_arg : Str) : Result :=
  let (c1, e1) := closeDataConn c
  ({ c1 with running := false, username := [], identified := false },
    e1 ++ sendMsg 221 "OK".toList)

/-- `handlePORT` (lines 347-368). -/
def handlePORT (c : FTPConn) (arg : Str) : Result :=
  let (c1, e1) := closeDataConn c
  let params := stringsSplit arg ','
  if params.length ≠ 6 then
    (c1, e1 ++ sendMsg 501 "Parameter error".toList)
  else
    let c2 := { c1 with dataHost := stringsJoin (params.take 4) '.' }
    match Atoi (params.getD 4 []) with
    | none => (c2, e1 ++ handleErr 501 "Parameter error".toList)
    | some p1 =>
      match Atoi (params.getD 5 []) with
      | none => (c2, e1 ++ sendMsg 501 "Parameter error".toList)
      | some p2 =>
        ({ c2 with dataPort := wrapInt (wrapInt (p1 * 256) + p2), pasv := false },
          e1 ++ sendMsg 200 "OK".toList)

/-- The first port field of the 227 reply: `port>>8&0xFF` (line 389). -/
def pasvP1 (port : Nat) : Nat :=
  (port >>> 8) &&& 0xFF

/-- The second port field of the 227 reply: `port&0xFF` (line 389). -/
def pasvP2 (port : Nat) : Nat :=
  port &&& 0xFF

/-- The text of the 227 reply (lines 387-389). -/
def pasvMsg (ip : Str) (port : Nat) : Str :=
  "Entering Passive Mode (".toList ++ ip.map (fun ch => if ch = '.' then ',' else ch) ++
    ',' :: itoa (pasvP1 port) ++ ',' :: itoa (pasvP2 port) ++ [')']

/-- `handlePASV` (lines 370-391). -/
def handlePASV (c : FTPConn) (_arg : Str) (o : Outcome) : Result :=
  let (c1, e1) : Result :=
    match c.listener with
    | some l => ({ c with listener := none }, [Event.listenerClose l])
    | none => (c, [])
  match o.externalIP with
  | none => (c1, e1 ++ Event.externalIP :: handleErr 500 "passive mode error".toList)
  | some ip =>
    match o.listen with
    | none =>
      (c1, e1 ++ Event.externalIP :: Event.listen (ip ++ ":0".toList) ::
        handleErr 500 "passive mode error".toList)
    | some l =>
      ({ c1 with listener := some l, pasv := true },
        e1 ++ Event.externalIP :: Event.listen (ip ++ ":0".toList) ::
          sendMsg 227 (pasvMsg ip l.port))

/-- `handleTYPE` (lines 393-395). -/
def handleTYPE (c : FTPConn) (_arg : Str) : Result :=
  (c, sendMsg 220 "OK".toList)

/-- `handleRETR` (lines 397-419). -/
def handleRETR (c : FTPConn) (arg : Str) (o : Outcome) : Result :=
  match dataConnConn c o with
  | (c1, e1, ConnResult.crash) => (c1, e1 ++ [Event.crash])
  | (c1, e1, ConnResult.err) => (c1, e1 ++ handleErr 425 "Can't open data connection".toList)
  | (c1, e1, ConnResult.ok) =>
    let loc := (parsePath c1 arg).2
    let body :=
      if !o.openOk then Event.openFile loc :: sendMsg 450 "Can't open file".toList
      else if !o.copyOk then
        Event.openFile loc :: Event.copyToData (c1.dataConn.getD 0) ::
          (sendMsg 451 "Transfer file failed".toList ++ [Event.closeFile])
      else
        Event.openFile loc :: Event.copyToData (c1.dataConn.getD 0) ::
          (sendMsg 226 "OK".toList ++ [Event.closeFile])
    let (c2, e2) := closeDataConn c1
    (c2, e1 ++ sendMsg 125 "OK".toList ++ body ++ e2)

/-- `handleSTOR` (lines 421-443). -/
def handleSTOR (c : FTPConn) (arg : Str) (o : Outcome) : Result :=
  match dataConnConn c o with
  | (c1, e1, ConnResult.crash) => (c1, e1 ++ [Event.crash])
  | (c1, e1, ConnResult.err) => (c1, e1 ++ handleErr 425 "Can't open data connection".toList)
  | (c1, e1, ConnResult.ok) =>
    let loc := (parsePath c1 arg).2
    let body :=
      if !o.createOk then Event.createFile loc :: sendMsg 450 "Can't create file".toList
      else if !o.copyOk then
        Event.createFile loc :: Event.copyFromData (c1.dataConn.getD 0) ::
          (sendMsg 451 "Store file failed".toList ++ [Event.closeFile])
      else
        Event.createFile loc :: Event.copyFromData (c1.dataConn.getD 0) ::
          (sendMsg 226 "OK".toList ++ [Event.closeFile])
    let (c2, e2) := closeDataConn c1
    (c2, e1 ++ sendMsg 125 "OK".toList ++ body ++ e2)

/-- `handleSYST` (lines 445-447). -/
def handleSYST (c : FTPConn) (_arg : Str) : Result :=
  (c, sendMsg 215 "UNIX".toList)

/-- A handler that asks nothing of the operating system, as a table
entry. -/
def pureHandler (f : FTPConn → Str → Result) : Handler :=
  fun c arg _ => f c arg

/-- `buildCommandMap` (lines 454-477): the command table. -/
def buildCommandMap : List (Str × Handler) :=
  [ ("USER".toList, pureHandler handleUSER),
    ("PASS".toList, pureHandler handlePASS),
    ("CWD".toList, handleSecurity handleCWD),
    ("XCWD".toList, handleSecurity handleXCWD),
    ("CDUP".toList, handleSecurity handleCDUP),
    ("RNFR".toList, handleSecurity (pureHandler handleRNFR)),
    ("RNTO".toList, handleSecurity (pureHandler handleRNTO)),
    ("DELE".toList, handleSecurity handleDELE),
    ("RMD".toList, handleSecurity handleRMD),
    ("MKD".toList, handleSecurity handleMKD),
    ("XMKD".toList, handleSecurity handleXMKD),
    ("PWD".toList, handleSecurity (pureHandler handlePWD)),
    ("QUIT".toList, handleSecurity (pureHandler handleQUIT)),
    ("PORT".toList, handleSecurity (pureHandler handlePORT)),
    ("PASV".toList, handleSecurity handlePASV),
    ("TYPE".toList, handleSecurity (pureHandler handleTYPE)),
    ("RETR".toList, handleSecurity handleRETR),
    ("STOR".toList, handleSecurity handleSTOR),
    ("SYST".toList, handleSecurity (pureHandler handleSYST)),
    ("LIST".toList, handleSecurity handleLIST) ]

/-- The lookup `ftpConn.commands[verb]` (line 116). -/
def commands (verb : Str) : Option Handler :=
  buildCommandMap.lookup verb

/-- The split of one input line into command and argument
(lines 104-115); `none` is the branch `len(data) == 0`. -/
def parseLine (line : Str) : Option (Str × Str) :=
  let data := stringsSplit line ' '
  if data.length = 0 then none
  else if data.length = 1 then some (data.getD 0 [], [])
  else some (data.getD 0 [], data.getD 1 [])

/-- One turn of the loop of `start` (lines 103-125) on one line read from
the control connection: the next state, the events, and whether the loop
goes on to read the next line. -/
def stepLine (c : FTPConn) (line : Str) (o : Outcome) : FTPConn × List Event × Bool :=
  match parseLine line with
  | none => ({ c with running := false }, [], false)
  | some (command, arg) =>
    match commands (stringsToUpper command) with
    | none => (c, sendMsg 500 "Command Not Found".toList, true)
    | some methond =>
      let (c1, e1) := methond c arg o
      (c1, e1, c1.running && decide (Event.crash ∉ e1))

/-- The loop of `start` over the lines the scanner delivers, each with the
answers of the operating system while it is handled; the list ends where
`input.Scan()` returns false. -/
def loop : FTPConn → List (Str × Outcome) → Result
  | c, [] => (c, [])
  | c, (line, o) :: rest =>
    match stepLine c line o with
    | (c1, e1, true) => let (c2, e2) := loop c1 rest; (c2, e1 ++ e2)
    | (c1, e1, false) => (c1, e1)

/-- `sayWelcome` (lines 133-135). -/
def sayWelcome : List Event :=
  sendMsg 220 "Welcome to Ftp.go FTP".toList

/-- `sayBye` (lines 137-139). -/
def sayBye : List Event :=
  sendMsg 200 "OK".toList

/-- `start` (lines 99-131): the whole session on a control connection
that delivers the lines `input`.  After a crash nothing more happens. -/
def start (c : FTPConn) (input : List (Str × Outcome)) : Result :=
  let (c1, e1) := loop c input
  if Event.crash ∈ e1 then (c1, sayWelcome ++ e1)
  else
    let (c2, e2) := closeDataConn c1
    (c2, sayWelcome ++ e1 ++ sayBye ++ e2 ++ [Event.connClose])


/-! ## Notions used to state and prove the properties -/

/-- One path element applied to the list of elements kept so far: an empty
element and `.` change nothing, `..` removes the last kept element (and
nothing at the root), a name is appended. -/
def pushComp (st : List Str) (w : Str) : List Str :=
  if w = [] ∨ w = ['.'] then st
  else if w = ['.', '.'] then st.dropLast
  else st ++ [w]

/-- The elements kept from the text `rest`, starting from `st`. -/
def normComps (st : List Str) (rest : Str) : List Str :=
  (rest.splitOn '/').foldl pushComp st

/-- The text `/c1/c2/.../cn`. -/
def segs : List Str → Str
  | [] => []
  | w :: ws => '/' :: w ++ segs ws

/-- The rooted path with the given elements; no element is the root `/`. -/
def renderAbs (cs : List Str) : Str :=
  if cs = [] then ['/'] else segs cs

/-- Every element is a name: not empty, without slash. -/
def GoodComps (cs : List Str) : Prop :=
  ∀ w ∈ cs, w ≠ [] ∧ '/' ∉ w

/-- Every element is a proper name: not empty, without slash, and neither
`.` nor `..`. -/
def NormalComps (cs : List Str) : Prop :=
  ∀ w ∈ cs, w ≠ [] ∧ '/' ∉ w ∧ w ≠ ['.'] ∧ w ≠ ['.', '.']

/-- The elements of a path: its non-empty fields between slashes. -/
def pathComponents (p : Str) : List Str :=
  (stringsSplit p '/').filter (· ≠ [])

/-- The command parser as the specification words it: the verb is the text
before the first whitespace run, upper-cased, and the argument is the whole
remainder of the line after that run. -/
def specParse (line : Str) : Str × Str :=
  (stringsToUpper (line.takeWhile (fun ch => !ch.isWhitespace)),
    (line.dropWhile (fun ch => !ch.isWhitespace)).dropWhile Char.isWhitespace)

/-- A credential table with one ordinary user and the anonymous account. -/
def sampleConfig : List (Str × userConfig) :=
  [ ("bob".toList, { Password := "secret".toList, HomeDir := "/home/bob".toList }),
    ("anonymous".toList, { Password := [], HomeDir := "/srv/ftp".toList }) ]

/-- An environment in which nothing exists and no network call succeeds. -/
def sampleOutcome : Outcome :=
  { stat := StatResult.notExist, renameOk := true, removeOk := true, mkdirOk := true,
    externalIP := none, listen := none, accept := none, dial := none, readDir := none,
    openOk := true, createOk := true, copyOk := true }

/-- A session that has logged in (as the anonymous account does) and is in
passive mode. -/
def loggedIn : FTPConn :=
  { NewFTPConn sampleConfig none with identified := true, pasv := true }

/-- A monitor of the data sockets along the trace of one command, in an
environment `o`: `cur` is the data socket that is open.  `accept` and
`dial` are allowed only while none is open and open the socket `o` answers
with (none if the call fails), `dataClose d`, a write and a copy are
allowed only on the open socket.  The result is the socket open at the end,
or `none` as soon as the trace breaks one of these rules. -/
def dataSockets (o : Outcome) : Option Nat → List Event → Option (Option Nat)
  | cur, [] => some cur
  | cur, e :: es =>
    match e with
    | Event.accept _ => if cur = none then dataSockets o o.accept es else none
    | Event.dial _ => if cur = none then dataSockets o o.dial es else none
    | Event.dataClose d => if cur = some d then dataSockets o none es else none
    | Event.dataWrite d _ => if cur = some d then dataSockets o cur es else none
    | Event.copyToData d => if cur = some d then dataSockets o cur es else none
    | Event.copyFromData d => if cur = some d then dataSockets o cur es else none
    | _ => dataSockets o cur es

/-- The reply lines of a trace, in order. -/
def replies (es : List Event) : List (Int × Str) :=
  es.filterMap (fun e =>
    match e with
    | Event.reply code msg => some (code, msg)
    | _ => none)

/-- The calls of `os.Rename` in a trace, in order. -/
def renames (es : List Event) : List (Str × Str) :=
  es.filterMap (fun e =>
    match e with
    | Event.rename src dst => some (src, dst)
    | _ => none)

/-- An environment in which `PASV` succeeds: the address lookup answers
`10.0.0.1` and the listener is bound to port 50000. -/
def passiveOutcome : Outcome :=
  { sampleOutcome with externalIP := some "10.0.0.1".toList, listen := some ⟨1, 50000⟩ }

/-- An environment in which the address lookup succeeds and `net.Listen`
fails. -/
def listenFails : Outcome :=
  { sampleOutcome with externalIP := some "10.0.0.1".toList, listen := none }

/-- An environment in which the target exists (`os.Stat` succeeds) and
`os.Remove`, `os.Rename` and `os.MkdirAll` fail. -/
def failingOutcome : Outcome :=
  { sampleOutcome with
    stat := StatResult.ok false, removeOk := false, renameOk := false, mkdirOk := false }

/-- A logged-in session in active mode with a recorded target. -/
def activeSession : FTPConn :=
  { loggedIn with pasv := false, dataHost := "10.0.0.9".toList, dataPort := 2000 }

/-- A logged-in session in passive mode that holds a listener. -/
def passiveSession : FTPConn :=
  { loggedIn with listener := some ⟨1, 50000⟩ }

/-- A file of three bytes. -/
def sampleFile : FileInfo :=
  { name := "f".toList, size := 3, isDir := false, modTime := "01 02 15:04".toList }

/-- An environment in which a peer connects (socket 7) and the directory
holds one file. -/
def transferOutcome : Outcome :=
  { sampleOutcome with accept := some 7, readDir := some [sampleFile] }

/-- The text between the parentheses of the 227 reply for the address `ip`
and the port `port` (lines 387-389): the address with its dots turned into
commas, then the two port fields in decimal. -/
def pasvFields (ip : Str) (port : Nat) : Str :=
  ip.map (fun ch => if ch = '.' then ',' else ch) ++
    ',' :: itoa (pasvP1 port) ++ ',' :: itoa (pasvP2 port)

/-- The session after `USER anonymous` in a new session. -/
def anonymousSession : FTPConn :=
  (handleUSER (NewFTPConn sampleConfig none) "anonymous".toList).1

/-! ## Lemmas on the library model -/

theorem splitOn_cons_sep (sep : Char) (t : Str) :
    (sep :: t).splitOn sep = [] :: t.splitOn sep := by
  simp [List.splitOn, List.splitOnP_cons]

theorem splitOn_cons_other (sep c : Char) (t : Str) (h : c ≠ sep) :
    (c :: t).splitOn sep = (t.splitOn sep).modifyHead (List.cons c) := by
  simp [List.splitOn, List.splitOnP_cons, h]

theorem splitOn_eq (sep : Char) (l : Str) :
    l.splitOn sep = l.takeWhile (· ≠ sep) ::
      (match l.dropWhile (· ≠ sep) with
        | [] => []
        | _ :: t => t.splitOn sep) := by
  induction l with
  | nil => simp
  | cons c t ih =>
    by_cases h : c = sep
    · subst h
      simp [splitOn_cons_sep]
    · rw [splitOn_cons_other sep c t h, ih]
      simp [h, List.modifyHead]

theorem splitOn_no_sep (sep : Char) (l : Str) : ∀ w ∈ l.splitOn sep, sep ∉ w := by
  induction l with
  | nil => simp
  | cons c t ih =>
    by_cases h : c = sep
    · subst h
      rw [splitOn_cons_sep]
      intro w hw
      rcases List.mem_cons.1 hw with rfl | hw
      · simp
      · exact ih w hw
    · rw [splitOn_cons_other sep c t h]
      cases hs : t.splitOn sep with
      | nil => simp [List.modifyHead]
      | cons a as =>
        rw [hs] at ih
        intro w hw
        simp only [List.modifyHead, List.mem_cons] at hw
        rcases hw with rfl | hw
        · have := ih a (List.mem_cons_self _ _)
          simp [this, Ne.symm h]
        · exact ih w (List.mem_cons_of_mem _ hw)

theorem dropWhile_head (sep : Char) (l : Str) :
    l.dropWhile (· ≠ sep) = [] ∨ ∃ t, l.dropWhile (· ≠ sep) = sep :: t := by
  induction l with
  | nil => simp
  | cons c t ih =>
    by_cases h : c = sep
    · subst h; right; exact ⟨t, by simp⟩
    · simpa [h] using ih

theorem normComps_nil (st : List Str) : normComps st [] = st := by
  simp [normComps, pushComp]

theorem normComps_slash (st : List Str) (t : Str) : normComps st ('/' :: t) = normComps st t := by
  simp [normComps, splitOn_cons_sep, pushComp]

/-- The first element is pushed, the rest goes on from the next slash. -/
theorem normComps_step (st : List Str) (rest : Str) :
    normComps st rest =
      normComps (pushComp st (rest.takeWhile (· ≠ '/'))) (rest.dropWhile (· ≠ '/')) := by
  rcases dropWhile_head '/' rest with h | ⟨t, h⟩
  · rw [h, normComps_nil]
    unfold normComps
    rw [splitOn_eq '/' rest, h]
    simp
  · rw [h, normComps_slash]
    unfold normComps
    conv_lhs => rw [splitOn_eq '/' rest, h]
    simp

theorem backtrack_run (buf : Str) (d m : Nat) (hm : 0 < m) (hd : d ≤ m)
    (hstop : m ≤ d ∨ buf.getD m ' ' = '/') :
    ∀ k, (∀ j, m < j → j ≤ m + k → buf.getD j ' ' ≠ '/') → backtrack buf d (m + k) = m := by
  intro k
  induction k with
  | zero =>
    intro _
    obtain ⟨n, rfl⟩ : ∃ n, m = n + 1 := ⟨m - 1, by omega⟩
    have : ¬ (n + 1 > d ∧ buf.getD (n + 1) ' ' ≠ '/') := by
      rintro ⟨h1, h2⟩
      rcases hstop with h | h
      · omega
      · exact h2 h
    simp only [Nat.add_zero, backtrack, if_neg this]
  | succ k ih =>
    intro hrun
    have h1 : m + (k + 1) = (m + k) + 1 := by omega
    have h2 : (m + k) + 1 > d ∧ buf.getD ((m + k) + 1) ' ' ≠ '/' :=
      ⟨by omega, hrun _ (by omega) (by omega)⟩
    rw [h1]
    simp only [backtrack, if_pos h2]
    exact ih (fun j hj hj2 => hrun j hj (by omega))

theorem getD_suffix_ne (pre w : Str) (hw : '/' ∉ w) (j : Nat)
    (h1 : pre.length ≤ j) (h2 : j < pre.length + w.length) :
    (pre ++ w).getD j ' ' ≠ '/' := by
  rw [List.getD_append_right _ _ _ _ h1, List.getD_eq_getElem _ _ (by omega)]
  intro h
  exact hw (h ▸ List.getElem_mem _)

theorem segs_append (a b : List Str) : segs (a ++ b) = segs a ++ segs b := by
  induction a with
  | nil => rfl
  | cons w ws ih => simp [segs, ih]

theorem segs_length_pos (st : List Str) (h : st ≠ []) : 0 < (segs st).length := by
  cases st with
  | nil => exact absurd rfl h
  | cons w ws => simp [segs]

/-- Backtracking over the last element of a rooted buffer. -/
theorem pop_render (st : List Str) (w : Str) (hw : w ≠ [] ∧ '/' ∉ w) :
    (renderAbs (st ++ [w])).take
      (backtrack (renderAbs (st ++ [w])) 1 ((renderAbs (st ++ [w])).length - 1)) =
      renderAbs st := by
  have hwl : 0 < w.length := List.length_pos.2 hw.1
  have hr : renderAbs (st ++ [w]) = segs st ++ '/' :: w := by
    simp [renderAbs, segs_append, segs]
  rw [hr]
  by_cases hst : st = []
  · subst hst
    have hb : backtrack ('/' :: w) 1 (1 + (w.length - 1)) = 1 := by
      apply backtrack_run _ 1 1 (by omega) (by omega) (Or.inl (le_refl _))
      intro j hj1 hj2
      exact getD_suffix_ne ['/'] w hw.2 j (by simp; omega) (by simp; omega)
    have e : (segs [] ++ '/' :: w).length - 1 = 1 + (w.length - 1) := by
      simp [segs]; omega
    rw [e]
    simp only [segs, List.nil_append]
    rw [hb]
    simp [renderAbs]
  · have hp := segs_length_pos st hst
    have e : (segs st ++ '/' :: w).length - 1 = (segs st).length + w.length := by
      simp
    rw [e]
    have hb : backtrack (segs st ++ '/' :: w) 1 ((segs st).length + w.length) =
        (segs st).length := by
      apply backtrack_run _ 1 _ hp (by omega)
      · right
        rw [List.getD_append_right _ _ _ _ (le_refl _)]
        simp
      · intro j hj1 hj2
        have : segs st ++ '/' :: w = (segs st ++ ['/']) ++ w := by simp
        rw [this]
        exact getD_suffix_ne _ w hw.2 j (by simp; omega) (by simp; omega)
    rw [hb]
    simp [renderAbs, hst]

theorem takeWhile_cons_ne (c : Char) (t : Str) (hc : c ≠ '/') :
    (c :: t).takeWhile (· ≠ '/') = c :: t.takeWhile (· ≠ '/') := by
  simp [hc]

theorem dropWhile_cons_ne (c : Char) (t : Str) (hc : c ≠ '/') :
    (c :: t).dropWhile (· ≠ '/') = t.dropWhile (· ≠ '/') := by
  simp [hc]

theorem takeWhile_nil_iff (t : Str) :
    t.takeWhile (· ≠ '/') = [] ↔ (t = [] ∨ t.head? = some '/') := by
  cases t with
  | nil => simp
  | cons a t =>
    by_cases h : a = '/' <;> simp [h]

theorem dropWhile_of_takeWhile_nil (t : Str) (h : t.takeWhile (· ≠ '/') = []) :
    t.dropWhile (· ≠ '/') = t := by
  cases t with
  | nil => simp
  | cons a t =>
    by_cases h1 : a = '/'
    · simp [h1]
    · simp [h1] at h

theorem elem_dot (c : Char) (t : Str) (hc : c ≠ '/') :
    (c = '.' ∧ (t = [] ∨ t.head? = some '/')) ↔ (c :: t).takeWhile (· ≠ '/') = ['.'] := by
  rw [← takeWhile_nil_iff]
  simp [hc]

theorem elem_dotdot (c : Char) (t : Str) (hc : c ≠ '/') :
    (c = '.' ∧ t.head? = some '.' ∧ (t.tail = [] ∨ t.tail.head? = some '/')) ↔
      (c :: t).takeWhile (· ≠ '/') = ['.', '.'] := by
  rw [← takeWhile_nil_iff]
  cases t with
  | nil => simp [hc]
  | cons a t =>
    by_cases h : a = '/'
    · subst h; simp [hc]
    · simp [hc, h]

theorem drop_dot (c : Char) (t : Str) (hc : c ≠ '/')
    (h : (c :: t).takeWhile (· ≠ '/') = ['.']) : (c :: t).dropWhile (· ≠ '/') = t := by
  rw [takeWhile_cons_ne c t hc] at h
  rw [dropWhile_cons_ne c t hc]
  exact dropWhile_of_takeWhile_nil t (List.cons.inj h).2

theorem drop_dotdot (c : Char) (t : Str) (hc : c ≠ '/')
    (h : (c :: t).takeWhile (· ≠ '/') = ['.', '.']) :
    (c :: t).dropWhile (· ≠ '/') = t.tail := by
  cases t with
  | nil => simp [hc] at h
  | cons a t =>
    by_cases ha : a = '/'
    · subst ha; simp [hc] at h
    · rw [takeWhile_cons_ne c _ hc, takeWhile_cons_ne a t ha] at h
      rw [dropWhile_cons_ne c _ hc, dropWhile_cons_ne a t ha]
      exact dropWhile_of_takeWhile_nil t (List.cons.inj (List.cons.inj h).2).2

theorem takeWhile_no_slash (l : Str) : '/' ∉ l.takeWhile (· ≠ '/') := by
  intro h
  simpa using List.mem_takeWhile_imp h

theorem dropWhile_length_le (l : Str) : (l.dropWhile (· ≠ '/')).length ≤ l.length := by
  induction l with
  | nil => simp
  | cons a t ih =>
    by_cases h : a = '/'
    · simp [h]
    · rw [dropWhile_cons_ne a t h, List.length_cons]
      omega

theorem renderAbs_length_one (st : List Str) (hst : GoodComps st) :
    (renderAbs st).length = 1 ↔ st = [] := by
  cases st with
  | nil => simp [renderAbs]
  | cons w ws =>
    have : w ≠ [] := (hst w (List.mem_cons_self _ _)).1
    have hl := List.length_pos.2 this
    simp only [renderAbs, segs, List.cons_ne_nil, if_false, List.length_cons, List.length_append,
      iff_false]
    omega

theorem goodComps_snoc (st : List Str) (w : Str) (h : GoodComps st) (hw : w ≠ [] ∧ '/' ∉ w) :
    GoodComps (st ++ [w]) := by
  intro x hx
  rcases List.mem_append.1 hx with hx | hx
  · exact h x hx
  · rw [List.mem_singleton.1 hx]; exact hw

/-- The loop of `path.Clean` on a rooted path computes the kept elements. -/
theorem cleanLoop_rooted : ∀ (fuel : Nat) (rest : Str) (st : List Str),
    rest.length ≤ fuel → GoodComps st →
    cleanLoop true fuel rest (renderAbs st) 1 = renderAbs (normComps st rest) := by
  intro fuel
  induction fuel with
  | zero =>
    intro rest st hl _
    have : rest = [] := List.length_eq_zero.1 (by omega)
    subst this
    simp [cleanLoop, normComps_nil]
  | succ fuel ih =>
    intro rest st hl hst
    cases rest with
    | nil => simp [cleanLoop, normComps_nil]
    | cons c t =>
      have hlt : t.length ≤ fuel := by simpa using hl
      by_cases h1 : c = '/'
      · subst h1
        simp only [cleanLoop, if_true]
        rw [normComps_slash]
        exact ih t st hlt hst
      · rw [normComps_step]
        by_cases h2 : c = '.' ∧ (t = [] ∨ t.head? = some '/')
        · have hw := (elem_dot c t h1).1 h2
          simp only [cleanLoop, if_neg h1, if_pos h2]
          rw [hw, drop_dot c t h1 hw]
          have : pushComp st ['.'] = st := by simp [pushComp]
          rw [this]
          exact ih t st hlt hst
        · by_cases h3 : c = '.' ∧ t.head? = some '.' ∧ (t.tail = [] ∨ t.tail.head? = some '/')
          · have hw := (elem_dotdot c t h1).1 h3
            have hlt2 : t.tail.length ≤ fuel := by
              have : t.tail.length ≤ t.length := by simp
              omega
            have hp : pushComp st ['.', '.'] = st.dropLast := by simp [pushComp]
            simp only [cleanLoop, if_neg h1, if_neg h2, if_pos h3]
            rw [hw, drop_dotdot c t h1 hw, hp]
            by_cases hs : st = []
            · subst hs
              simp only [renderAbs, if_true, List.length_singleton, gt_iff_lt, lt_self_iff_false,
                if_false, Bool.not_true, Bool.false_eq_true, List.dropLast_nil]
              exact ih t.tail [] hlt2 hst
            · obtain ⟨st', x, rfl⟩ : ∃ st' x, st = st' ++ [x] :=
                ⟨st.dropLast, st.getLast hs, (List.dropLast_append_getLast hs).symm⟩
              have hx := hst x (by simp)
              have hlen : (renderAbs (st' ++ [x])).length > 1 := by
                have := renderAbs_length_one (st' ++ [x]) hst
                have hpos : 0 < (renderAbs (st' ++ [x])).length := by
                  simp [renderAbs, segs_append, segs]
                have hne : (renderAbs (st' ++ [x])).length ≠ 1 := fun h => hs (this.1 h)
                omega
              rw [if_pos hlen, pop_render st' x hx, List.dropLast_concat]
              exact ih t.tail st' hlt2 (fun w hw => hst w (by simp [hw]))
          · have hw1 : (c :: t).takeWhile (· ≠ '/') ≠ ['.'] := fun h => h2 ((elem_dot c t h1).2 h)
            have hw2 : (c :: t).takeWhile (· ≠ '/') ≠ ['.', '.'] :=
              fun h => h3 ((elem_dotdot c t h1).2 h)
            have hw0 : (c :: t).takeWhile (· ≠ '/') ≠ [] := by simp [h1]
            have hp : pushComp st ((c :: t).takeWhile (· ≠ '/')) =
                st ++ [(c :: t).takeWhile (· ≠ '/')] := by
              simp only [pushComp, hw0, hw1, hw2, or_self, if_false]
            have hg := goodComps_snoc st _ hst ⟨hw0, takeWhile_no_slash (c :: t)⟩
            have hld : ((c :: t).dropWhile (· ≠ '/')).length ≤ fuel := by
              have := dropWhile_length_le t
              rw [dropWhile_cons_ne c t h1]
              omega
            simp only [cleanLoop, if_neg h1, if_neg h2, if_neg h3]
            rw [hp, ← ih _ _ hld hg]
            congr 1
            by_cases hs : st = []
            · subst hs
              simp [renderAbs, segs]
            · have hne : (renderAbs st).length ≠ 1 :=
                fun h => hs ((renderAbs_length_one st hst).1 h)
              rw [if_pos (Or.inl ⟨trivial, hne⟩)]
              simp [renderAbs, hs, segs_append, segs]

theorem normal_good (cs : List Str) (h : NormalComps cs) : GoodComps cs :=
  fun w hw => ⟨(h w hw).1, (h w hw).2.1⟩

/-- `path.Clean` on a rooted path, by elements. -/
theorem Clean_rooted (p : Str) (hp : p.head? = some '/') :
    Clean p = renderAbs (normComps [] p) := by
  cases p with
  | nil => simp at hp
  | cons a t =>
    have ha : a = '/' := by simpa using hp
    subst ha
    have hl := cleanLoop_rooted ('/' :: t).length t [] (by simp) (by intro w hw; simp at hw)
    have hr : renderAbs ([] : List Str) = ['/'] := rfl
    rw [hr] at hl
    have hne : (renderAbs (normComps [] t)).length ≠ 0 := by
      unfold renderAbs
      split
      · simp
      · rename_i h
        have := segs_length_pos _ h
        omega
    rw [normComps_slash]
    unfold Clean
    simp only [List.cons_ne_nil, if_false, List.head?_cons, decide_True, if_true, List.tail_cons,
      hl, if_neg hne]

theorem pushComp_normal (st : List Str) (w : Str) (hst : NormalComps st) (hw : '/' ∉ w) :
    NormalComps (pushComp st w) := by
  unfold pushComp
  split
  · exact hst
  · split
    · exact fun x hx => hst x (List.mem_of_mem_dropLast hx)
    · rename_i h1 h2
      intro x hx
      rcases List.mem_append.1 hx with hx | hx
      · exact hst x hx
      · rw [List.mem_singleton.1 hx]
        exact ⟨fun h => h1 (Or.inl h), hw, fun h => h1 (Or.inr h), h2⟩

theorem foldl_pushComp_normal (ws : List Str) (hws : ∀ w ∈ ws, '/' ∉ w) :
    ∀ st, NormalComps st → NormalComps (ws.foldl pushComp st) := by
  induction ws with
  | nil => exact fun st h => h
  | cons w ws ih =>
    intro st hst
    exact ih (fun x hx => hws x (List.mem_cons_of_mem _ hx)) _
      (pushComp_normal st w hst (hws w (List.mem_cons_self _ _)))

theorem normComps_normal (st : List Str) (rest : Str) (hst : NormalComps st) :
    NormalComps (normComps st rest) :=
  foldl_pushComp_normal _ (splitOn_no_sep '/' rest) st hst

theorem takeWhile_append_stop (w rest : Str) (hw : '/' ∉ w)
    (hr : rest = [] ∨ ∃ t, rest = '/' :: t) :
    (w ++ rest).takeWhile (· ≠ '/') = w ∧ (w ++ rest).dropWhile (· ≠ '/') = rest := by
  induction w with
  | nil =>
    rcases hr with rfl | ⟨t, rfl⟩ <;> simp
  | cons a w ih =>
    have ha : a ≠ '/' := fun h => hw (h ▸ List.mem_cons_self _ _)
    have hw' : '/' ∉ w := fun h => hw (List.mem_cons_of_mem _ h)
    rw [List.cons_append, takeWhile_cons_ne a _ ha, dropWhile_cons_ne a _ ha]
    exact ⟨by rw [(ih hw').1], (ih hw').2⟩

theorem normComps_word (st : List Str) (w rest : Str) (hw : '/' ∉ w)
    (hr : rest = [] ∨ ∃ t, rest = '/' :: t) :
    normComps st (w ++ rest) = normComps (pushComp st w) rest := by
  rw [normComps_step, (takeWhile_append_stop w rest hw hr).1,
    (takeWhile_append_stop w rest hw hr).2]

theorem pushComp_of_normal (st : List Str) (w : Str)
    (hw : w ≠ [] ∧ '/' ∉ w ∧ w ≠ ['.'] ∧ w ≠ ['.', '.']) : pushComp st w = st ++ [w] := by
  simp [pushComp, hw.1, hw.2.2.1, hw.2.2.2]

theorem segs_head (cs : List Str) (rest : Str) (hr : rest = [] ∨ ∃ t, rest = '/' :: t) :
    segs cs ++ rest = [] ∨ ∃ t, segs cs ++ rest = '/' :: t := by
  cases cs with
  | nil => simpa [segs] using hr
  | cons w ws => right; exact ⟨w ++ (segs ws ++ rest), by simp [segs]⟩

theorem normComps_segs (cs : List Str) (hcs : NormalComps cs) (rest : Str)
    (hr : rest = [] ∨ ∃ t, rest = '/' :: t) :
    ∀ st, normComps st (segs cs ++ rest) = normComps (st ++ cs) rest := by
  induction cs with
  | nil => intro st; simp [segs]
  | cons w ws ih =>
    intro st
    have hw := hcs w (List.mem_cons_self _ _)
    have hws : NormalComps ws := fun x hx => hcs x (List.mem_cons_of_mem _ hx)
    have e : segs (w :: ws) ++ rest = '/' :: (w ++ (segs ws ++ rest)) := by simp [segs]
    rw [e, normComps_slash, normComps_word st w _ hw.2.1 (segs_head ws rest hr),
      pushComp_of_normal st w hw, ih hws]
    simp

theorem normComps_renderAbs (cs : List Str) (hcs : NormalComps cs) (rest : Str)
    (hr : rest = [] ∨ ∃ t, rest = '/' :: t) (st : List Str) :
    normComps st (renderAbs cs ++ rest) = normComps (st ++ cs) rest := by
  by_cases h : cs = []
  · subst h
    simp [renderAbs, normComps_slash]
  · simp only [renderAbs, if_neg h]
    exact normComps_segs cs hcs rest hr st

theorem renderAbs_head (cs : List Str) : (renderAbs cs).head? = some '/' := by
  cases cs <;> simp [renderAbs, segs]

/-- A clean path is the rendering of its elements. -/
theorem Clean_renderAbs (cs : List Str) (hcs : NormalComps cs) :
    Clean (renderAbs cs) = renderAbs cs := by
  rw [Clean_rooted _ (renderAbs_head cs)]
  have := normComps_renderAbs cs hcs [] (Or.inl rfl) []
  simp only [List.append_nil, List.nil_append, normComps_nil] at this
  rw [this]

theorem Join_two (a b : Str) (ha : a ≠ []) : Join [a, b] = Clean (a ++ '/' :: b) := by
  have hl : a.length ≠ 0 := fun h => ha (List.length_eq_zero.1 h)
  simp [Join, ha, hl]

theorem splitOn_segs (w : Str) (hw : '/' ∉ w) (cs : List Str) (hcs : ∀ x ∈ cs, '/' ∉ x) :
    (w ++ segs cs).splitOn '/' = w :: cs := by
  induction cs generalizing w with
  | nil =>
    rw [splitOn_eq]
    have := takeWhile_append_stop w [] hw (Or.inl rfl)
    simp only [segs, List.append_nil] at this ⊢
    rw [this.1, this.2]
  | cons x xs ih =>
    rw [splitOn_eq]
    have := takeWhile_append_stop w (segs (x :: xs)) hw (Or.inr ⟨_, rfl⟩)
    rw [this.1, this.2]
    show w :: (x ++ segs xs).splitOn '/' = w :: x :: xs
    rw [ih x (hcs x (List.mem_cons_self _ _)) (fun y hy => hcs y (List.mem_cons_of_mem _ hy))]

theorem renderAbs_eq_root (cs : List Str) (hcs : NormalComps cs) :
    renderAbs cs = ['/'] ↔ cs = [] := by
  constructor
  · intro h
    exact (renderAbs_length_one cs (normal_good cs hcs)).1 (by rw [h]; rfl)
  · rintro rfl; rfl

theorem splitOn_renderAbs_tail (w : Str) (ws : List Str) (hcs : NormalComps (w :: ws)) :
    stringsSplit (renderAbs (w :: ws)).tail '/' = w :: ws := by
  have : (renderAbs (w :: ws)).tail = w ++ segs ws := by simp [renderAbs, segs]
  rw [this]
  exact splitOn_segs w (hcs w (List.mem_cons_self _ _)).2.1 ws
    (fun x hx => (hcs x (List.mem_cons_of_mem _ hx)).2.1)

theorem pathComponents_renderAbs (cs : List Str) (hcs : NormalComps cs) :
    pathComponents (renderAbs cs) = cs := by
  cases cs with
  | nil => decide
  | cons w ws =>
    have e : renderAbs (w :: ws) = '/' :: (w ++ segs ws) := by simp [renderAbs, segs]
    unfold pathComponents stringsSplit
    rw [e, splitOn_cons_sep, splitOn_segs w (hcs w (List.mem_cons_self _ _)).2.1 ws
      (fun x hx => (hcs x (List.mem_cons_of_mem _ hx)).2.1)]
    rw [List.filter_cons_of_neg (by simp)]
    apply List.filter_eq_self.2
    intro x hx
    simpa using (hcs x hx).1

theorem renderAbs_last (cs : List Str) (hcs : NormalComps cs) (hne : cs ≠ []) :
    (renderAbs cs).getLast? ≠ some '/' := by
  obtain ⟨st, x, rfl⟩ : ∃ st x, cs = st ++ [x] :=
    ⟨cs.dropLast, cs.getLast hne, (List.dropLast_append_getLast hne).symm⟩
  have hx := hcs x (by simp)
  have e : renderAbs (st ++ [x]) = (segs st ++ ['/']) ++ x := by
    simp [renderAbs, segs_append, segs]
  rw [e, List.getLast?_append_of_ne_nil _ hx.1]
  intro h
  exact hx.2.1 (List.mem_of_getLast?_eq_some h)

/-- The virtual path of `parsePath` is the rendering of proper names, and
the concrete path is the home directory joined with it. -/
theorem parsePath_shape (c : FTPConn) (arg : Str) (hc : c.currDir.head? = some '/') :
    ∃ rs, NormalComps rs ∧ (parsePath c arg).1 = renderAbs rs ∧
      (parsePath c arg).2 = Join [c.homeDir, renderAbs rs] := by
  have key : ∀ a : Str, a ≠ [] → ∃ rs, NormalComps rs ∧
      Clean (if a.head? ≠ some '/' then Join [c.currDir, a] else a) = renderAbs rs := by
    intro a _
    have h0 : NormalComps ([] : List Str) := by intro w hw; simp at hw
    by_cases h : a.head? = some '/'
    · refine ⟨normComps [] a, normComps_normal _ _ h0, ?_⟩
      rw [if_neg (not_not.2 h), Clean_rooted a h]
    · have hne : c.currDir ≠ [] := by intro h'; rw [h'] at hc; simp at hc
      have hh : (c.currDir ++ '/' :: a).head? = some '/' := by
        cases hcd : c.currDir with
        | nil => exact absurd hcd hne
        | cons x t => rw [hcd] at hc; simpa using hc
      refine ⟨normComps [] (c.currDir ++ '/' :: a), normComps_normal _ _ h0, ?_⟩
      rw [if_pos h, Join_two _ _ hne, Clean_rooted _ hh, Clean_renderAbs _ (normComps_normal _ _ h0)]
  obtain ⟨rs, hrs, e⟩ := key (if arg = [] then ['.'] else arg) (by split <;> simp [*])
  refine ⟨rs, hrs, ?_, ?_⟩
  · simp only [parsePath, e]
    rw [if_neg]
    intro h
    have := renderAbs_head rs
    rw [h] at this
    simp at this
  · simp only [parsePath, e]

/-- Joining a clean rooted home directory with a clean rooted virtual path
keeps the elements of both, in order. -/
theorem Join_renderAbs (hs rs : List Str) (hhs : NormalComps hs) (hrs : NormalComps rs) :
    Join [renderAbs hs, renderAbs rs] = renderAbs (hs ++ rs) := by
  have hne : renderAbs hs ≠ [] := by
    intro h
    have := renderAbs_head hs
    rw [h] at this
    simp at this
  have hh : (renderAbs hs ++ '/' :: renderAbs rs).head? = some '/' := by
    have := renderAbs_head hs
    cases hr : renderAbs hs with
    | nil => exact absurd hr hne
    | cons x t => rw [hr] at this; simpa using this
  rw [Join_two _ _ hne, Clean_rooted _ hh,
    normComps_renderAbs hs hhs _ (Or.inr ⟨_, rfl⟩) [], normComps_slash]
  have := normComps_renderAbs rs hrs [] (Or.inl rfl) ([] ++ hs)
  rw [List.append_nil] at this
  rw [this, normComps_nil, List.nil_append]

theorem parseLine_eq (line : Str) :
    parseLine line = some (line.takeWhile (· ≠ ' '),
      ((line.dropWhile (· ≠ ' ')).drop 1).takeWhile (· ≠ ' ')) := by
  unfold parseLine stringsSplit
  rw [splitOn_eq ' ' line]
  cases hd : line.dropWhile (· ≠ ' ') with
  | nil => simp
  | cons x t =>
    simp only []
    rw [splitOn_eq ' ' t]
    simp

theorem wrapInt_of_fits (x : Int) (h1 : -(2 ^ 63) ≤ x) (h2 : x < 2 ^ 63) : wrapInt x = x := by
  unfold wrapInt
  norm_num at h1 h2 ⊢
  omega

theorem wrapInt_add_wrapInt (a b : Int) : wrapInt (wrapInt a + b) = wrapInt (a + b) := by
  unfold wrapInt
  norm_num
  omega

theorem pasv_fields (port : Nat) (h : port ≤ 65535) :
    pasvP1 port ≤ 255 ∧ pasvP2 port ≤ 255 ∧ pasvP1 port * 256 + pasvP2 port = port := by
  have e1 : pasvP1 port = port / 256 % 256 := by
    unfold pasvP1
    rw [Nat.shiftRight_eq_div_pow]
    exact Nat.and_pow_two_sub_one_eq_mod _ 8
  have e2 : pasvP2 port = port % 256 := by
    unfold pasvP2
    exact Nat.and_pow_two_sub_one_eq_mod _ 8
  rw [e1, e2]
  omega

set_option maxRecDepth 1000000 in
theorem atoi_itoa_octet : ∀ n : Fin 256, Atoi (itoa (n.val : Int)) = some (n.val : Int) := by
  decide

/-- For a user that has a record, `handlePASS` compares with the stored
password. -/
theorem handlePASS_of_record (c : FTPConn) (arg : Str) (uc : userConfig)
    (h : c.config.lookup c.username = some uc) :
    handlePASS c arg =
      if arg = uc.Password then
        ({ c with homeDir := uc.HomeDir, identified := true }, [Event.reply 230 "OK".toList])
      else
        ({ c with running := false }, [Event.reply 530 "Password is not corrected".toList]) := by
  simp [handlePASS, configAt, h, sendMsg]

/-! ## The claims -/

/-- Claim C1 (login required): in a session that is not identified, each of the
eighteen verbs that need a login is in the command table, and its entry, for every
argument and every environment, returns the state unchanged and emits the
single event `reply 530 "Not logged in"`, so nothing of the filesystem or
the network is touched; the loop step on any line that parses to such a verb
does the same and goes on exactly when `running` holds; the line written
is `530 Not logged in` followed by CR LF. -/
theorem not_logged_in (c : FTPConn) (verb arg : Str) (o : Outcome)
    (hid : c.identified = false)
    (hv : verb ∈ ["CWD".toList, "XCWD".toList, "CDUP".toList, "RNFR".toList, "RNTO".toList,
      "DELE".toList, "RMD".toList, "MKD".toList, "XMKD".toList, "PWD".toList, "QUIT".toList,
      "PORT".toList, "PASV".toList, "TYPE".toList, "RETR".toList, "STOR".toList,
      "SYST".toList, "LIST".toList]) :
    (∃ h, commands verb = some h ∧
      h c arg o = (c, [Event.reply 530 "Not logged in".toList])) ∧
    (∀ line command, parseLine line = some (command, arg) → stringsToUpper command = verb →
      stepLine c line o = (c, [Event.reply 530 "Not logged in".toList], c.running)) ∧
    wire 530 "Not logged in".toList = "530 Not logged in\r\n".toList := by
  have key : ∃ h, commands verb = some h ∧
      h c arg o = (c, [Event.reply 530 "Not logged in".toList]) := by
    simp only [List.mem_cons, List.mem_singleton, List.not_mem_nil, or_false] at hv
    rcases hv with h | h | h | h | h | h | h | h | h | h | h | h | h | h | h | h | h | h <;>
      subst h <;> exact ⟨_, rfl, by simp [handleSecurity, hid, sendMsg]⟩
  refine ⟨key, ?_, by decide⟩
  intro line command hp hu
  obtain ⟨h, hc, hr⟩ := key
  simp [stepLine, hp, hu, hc, hr]

/-- Witness of C1: `LIST /etc` in a new session. -/
theorem not_logged_in_witness :
    (NewFTPConn sampleConfig none).identified = false ∧
    stepLine (NewFTPConn sampleConfig none) "list /etc".toList sampleOutcome =
      (NewFTPConn sampleConfig none, [Event.reply 530 "Not logged in".toList], true) :=
  ⟨rfl, (not_logged_in (NewFTPConn sampleConfig none) "LIST".toList "/etc".toList sampleOutcome rfl
    (by decide)).2.1 "list /etc".toList "list".toList (by decide) (by decide)⟩

/-- Claim C2 (path containment): when the home directory is absolute and
clean and the working directory is absolute, the concrete path of every
argument is rooted, has the elements of the home directory as a prefix of
its own elements, has no `.` or `..` element, and is the home directory
itself for the virtual root and the home directory followed by the virtual
path otherwise. -/
theorem parsePath_contained (c : FTPConn) (arg : Str)
    (hh : c.homeDir.head? = some '/') (hclean : Clean c.homeDir = c.homeDir)
    (hc : c.currDir.head? = some '/') :
    pathComponents c.homeDir <+: pathComponents (parsePath c arg).2 ∧
    (parsePath c arg).2.head? = some '/' ∧
    (∀ comp ∈ pathComponents (parsePath c arg).2, comp ≠ ".".toList ∧ comp ≠ "..".toList) ∧
    (parsePath c arg).2 =
      (if (parsePath c arg).1 = "/".toList then c.homeDir
        else if c.homeDir = "/".toList then (parsePath c arg).1
        else c.homeDir ++ (parsePath c arg).1) := by
  have h0 : NormalComps ([] : List Str) := by intro w hw; simp at hw
  obtain ⟨rs, hrs, e1, e2⟩ := parsePath_shape c arg hc
  have hhs : NormalComps (normComps [] c.homeDir) := normComps_normal _ _ h0
  have eh : c.homeDir = renderAbs (normComps [] c.homeDir) := by
    rw [← Clean_rooted _ hh, hclean]
  have hall : NormalComps (normComps [] c.homeDir ++ rs) := by
    intro w hw
    rcases List.mem_append.1 hw with hw | hw
    · exact hhs w hw
    · exact hrs w hw
  have e3 : (parsePath c arg).2 = renderAbs (normComps [] c.homeDir ++ rs) := by
    rw [e2]
    conv_lhs => rw [eh]
    exact Join_renderAbs _ _ hhs hrs
  refine ⟨?_, ?_, ?_, ?_⟩
  · rw [e3, pathComponents_renderAbs _ hall]
    conv_lhs => rw [eh]
    rw [pathComponents_renderAbs _ hhs]
    exact List.prefix_append _ _
  · rw [e3]; exact renderAbs_head _
  · rw [e3, pathComponents_renderAbs _ hall]
    intro comp hcomp
    exact ⟨(hall comp hcomp).2.2.1, (hall comp hcomp).2.2.2⟩
  · rw [e3, e1]
    have r1 : "/".toList = ['/'] := rfl
    rw [r1]
    by_cases hr : rs = []
    · subst hr
      have hroot : renderAbs ([] : List Str) = ['/'] := rfl
      rw [if_pos hroot, List.append_nil]
      exact eh.symm
    · rw [if_neg (fun h => hr ((renderAbs_eq_root rs hrs).1 h))]
      by_cases hh0 : normComps [] c.homeDir = []
      · have : c.homeDir = ['/'] := by rw [eh, hh0]; rfl
        rw [if_pos this, hh0, List.nil_append]
      · have hne : c.homeDir ≠ ['/'] := by
          intro h
          rw [eh] at h
          exact hh0 ((renderAbs_eq_root _ hhs).1 h)
        rw [if_neg hne]
        conv_rhs => rw [eh]
        simp [renderAbs, hh0, hr, segs_append]

/-- Witness of C2: three `..` from `/pub` stay below `/srv/ftp`. -/
theorem parsePath_contained_witness :
    pathComponents "/srv/ftp".toList <+:
      pathComponents (parsePath
        { NewFTPConn [] none with homeDir := "/srv/ftp".toList, currDir := "/pub".toList }
        "../../../etc/passwd".toList).2 ∧
    (parsePath { NewFTPConn [] none with homeDir := "/srv/ftp".toList, currDir := "/pub".toList }
        "../../../etc/passwd".toList).2 = "/srv/ftp/etc/passwd".toList :=
  ⟨(parsePath_contained
      { NewFTPConn [] none with homeDir := "/srv/ftp".toList, currDir := "/pub".toList }
      "../../../etc/passwd".toList (by decide) (by decide) (by decide)).1, by decide⟩

/-- Claim C3 (normalization and clamping): when the working directory is
absolute, the virtual path of every argument starts with `/`, is `/` or has
only elements that are neither empty nor `.` nor `..`, and does not end in a
slash unless it is `/`; `..` at the root gives the root, `../c` from `/a/b`
gives `/a/c`, and `../../x` from `/` gives `/x`. -/
theorem parsePath_virtual_normal (c : FTPConn) (arg : Str)
    (hc : c.currDir.head? = some '/') :
    (parsePath c arg).1.head? = some '/' ∧
    ((parsePath c arg).1 = "/".toList ∨
      ∀ comp ∈ stringsSplit (parsePath c arg).1.tail '/',
        comp ≠ [] ∧ comp ≠ ".".toList ∧ comp ≠ "..".toList) ∧
    ((parsePath c arg).1 ≠ "/".toList → (parsePath c arg).1.getLast? ≠ some '/') ∧
    (c.currDir = "/".toList → (parsePath c "..".toList).1 = "/".toList) ∧
    (c.currDir = "/a/b".toList → (parsePath c "../c".toList).1 = "/a/c".toList) ∧
    (c.currDir = "/".toList → (parsePath c "../../x".toList).1 = "/x".toList) := by
  obtain ⟨rs, hrs, e1, _⟩ := parsePath_shape c arg hc
  have r1 : "/".toList = ['/'] := rfl
  refine ⟨?_, ?_, ?_, ?_, ?_, ?_⟩
  · rw [e1]; exact renderAbs_head rs
  · rw [e1]
    cases rs with
    | nil => left; rfl
    | cons w ws =>
      right
      rw [splitOn_renderAbs_tail w ws hrs]
      intro comp hcomp
      exact ⟨(hrs comp hcomp).1, (hrs comp hcomp).2.2.1, (hrs comp hcomp).2.2.2⟩
  · rw [e1, r1]
    intro h
    exact renderAbs_last rs hrs (fun h' => h ((renderAbs_eq_root rs hrs).2 h'))
  · intro h
    simp only [parsePath, h]
    decide
  · intro h
    simp only [parsePath, h]
    decide
  · intro h
    simp only [parsePath, h]
    decide

/-- Witness of C3: the two examples of the claim. -/
theorem parsePath_virtual_normal_witness :
    (parsePath { NewFTPConn [] none with currDir := "/a/b".toList } "../c".toList).1 =
      "/a/c".toList ∧
    (parsePath (NewFTPConn [] none) "../../x".toList).1 = "/x".toList :=
  ⟨(parsePath_virtual_normal { NewFTPConn [] none with currDir := "/a/b".toList } []
      (by decide)).2.2.2.2.1 rfl,
    (parsePath_virtual_normal (NewFTPConn [] none) [] (by decide)).2.2.2.2.2 rfl⟩

/-- Claim C4, the behaviour of the code where it departs from the claim:
when the session's user name has no record in the credential table (as in
a new session, whose user name is empty), `PASS` with an empty argument is
accepted: the reply is 230, `identified` becomes true and the home
directory becomes the empty string; the loop does this on the line `PASS`. -/
theorem handlePASS_missing_user (c : FTPConn) (o : Outcome)
    (h : c.config.lookup c.username = none) :
    handlePASS c [] =
      ({ c with homeDir := [], identified := true }, [Event.reply 230 "OK".toList]) ∧
    stepLine c "PASS".toList o =
      ({ c with homeDir := [], identified := true }, [Event.reply 230 "OK".toList],
        c.running) := by
  have h1 : handlePASS c [] =
      ({ c with homeDir := [], identified := true }, [Event.reply 230 "OK".toList]) := by
    simp [handlePASS, configAt, h, sendMsg]
  refine ⟨h1, ?_⟩
  have hp : parseLine "PASS".toList = some ("PASS".toList, []) := by decide
  have hc : commands (stringsToUpper "PASS".toList) = some (pureHandler handlePASS) := rfl
  simp only [stepLine, hp, hc, pureHandler, h1]
  simp

/-- Witness of C4: the line `PASS` as first command of a new session. -/
theorem handlePASS_missing_user_witness :
    (NewFTPConn sampleConfig (some "/srv".toList)).config.lookup
        (NewFTPConn sampleConfig (some "/srv".toList)).username = none ∧
    stepLine (NewFTPConn sampleConfig (some "/srv".toList)) "PASS".toList sampleOutcome =
      ({ NewFTPConn sampleConfig (some "/srv".toList) with homeDir := [], identified := true },
        [Event.reply 230 "OK".toList], true) :=
  ⟨by decide, (handlePASS_missing_user _ sampleOutcome (by decide)).2⟩

/-- Claim C5, the behaviour of the code where it departs from the claim:
in a new session, after `USER anonymous` (230) the line `USER bob` for the
known user `bob` is answered by 331 "Need password", and yet the session
is still identified, now under the name `bob`: the `PWD` that follows is
served with 257 instead of being refused with 530. -/
theorem handleUSER_keeps_identified :
    sampleConfig.lookup "bob".toList =
      some { Password := "secret".toList, HomeDir := "/home/bob".toList } ∧
    replies (loop (NewFTPConn sampleConfig none)
      [("USER anonymous".toList, sampleOutcome), ("USER bob".toList, sampleOutcome),
        ("PWD".toList, sampleOutcome)]).2 =
      [(230, "OK".toList), (331, "Need password".toList), (257, "\"/\"".toList)] ∧
    (loop (NewFTPConn sampleConfig none)
      [("USER anonymous".toList, sampleOutcome),
        ("USER bob".toList, sampleOutcome)]).1.identified = true ∧
    (loop (NewFTPConn sampleConfig none)
      [("USER anonymous".toList, sampleOutcome),
        ("USER bob".toList, sampleOutcome)]).1.username = "bob".toList := by
  decide

/-- `handleUSER` by cases: an unknown name is answered by 550 and stops the
session; `anonymous`, when in the table, is authenticated at once with its
home directory and answered by 230; any other known name is stored in
`username` and answered by 331 with every other field unchanged, so a
session that was not authenticated stays unauthenticated. -/
theorem handleUSER_outcome (c : FTPConn) (name : Str) :
    (c.config.lookup name = none →
      handleUSER c name =
        ({ c with running := false }, [Event.reply 550 "Invalid User".toList])) ∧
    (∀ uc, c.config.lookup name = some uc → name = "anonymous".toList →
      handleUSER c name =
        ({ c with username := name, identified := true, homeDir := uc.HomeDir },
          [Event.reply 230 "OK".toList])) ∧
    (∀ uc, c.config.lookup name = some uc → name ≠ "anonymous".toList →
      handleUSER c name =
        ({ c with username := name }, [Event.reply 331 "Need password".toList]) ∧
      (c.identified = false → (handleUSER c name).1.identified = false)) := by
  refine ⟨fun h => ?_, fun uc h hn => ?_, fun uc h hn => ?_⟩
  · simp only [handleUSER, h, sendMsg]
  · subst hn
    simp only [handleUSER, h, sendMsg, if_true]
  · simp only [handleUSER, h, sendMsg, if_neg hn, true_and]
    exact fun h => h

/-- Claim C6 (PORT with a wrong field count): in an authenticated session,
for an argument that does not split at the commas into exactly six fields,
the table entry of `PORT` emits, after closing an open data connection,
the single reply 501, and leaves `pasv`, `dataHost`, `dataPort`, `listener`
and `running` as they were. -/
theorem handlePORT_field_count (c : FTPConn) (arg : Str) (o : Outcome)
    (hid : c.identified = true) (hlen : (stringsSplit arg ',').length ≠ 6) :
    commands "PORT".toList = some (handleSecurity (pureHandler handlePORT)) ∧
    (handleSecurity (pureHandler handlePORT) c arg o).2 =
      (match c.dataConn with
        | some d => [Event.dataClose d]
        | none => []) ++ [Event.reply 501 "Parameter error".toList] ∧
    (handleSecurity (pureHandler handlePORT) c arg o).1.pasv = c.pasv ∧
    (handleSecurity (pureHandler handlePORT) c arg o).1.dataHost = c.dataHost ∧
    (handleSecurity (pureHandler handlePORT) c arg o).1.dataPort = c.dataPort ∧
    (handleSecurity (pureHandler handlePORT) c arg o).1.listener = c.listener ∧
    (handleSecurity (pureHandler handlePORT) c arg o).1.running = c.running := by
  refine ⟨rfl, ?_⟩
  simp only [handleSecurity, hid, if_true, pureHandler, handlePORT, closeDataConn]
  cases hd : c.dataConn <;> simp [hlen, sendMsg]

/-- Witness of C6: five fields. -/
theorem handlePORT_field_count_witness :
    (stringsSplit "10,0,0,1,4".toList ',').length ≠ 6 ∧
    (handleSecurity (pureHandler handlePORT) loggedIn "10,0,0,1,4".toList sampleOutcome).2 =
      [Event.reply 501 "Parameter error".toList] ∧
    (handleSecurity (pureHandler handlePORT) loggedIn "10,0,0,1,4".toList sampleOutcome).1.pasv =
      true :=
  ⟨by decide,
    (handlePORT_field_count loggedIn "10,0,0,1,4".toList sampleOutcome rfl (by decide)).2.1,
    (handlePORT_field_count loggedIn "10,0,0,1,4".toList sampleOutcome rfl (by decide)).2.2.1⟩

/-- Counterexample to C7 as stated: the argument `a,b,c,d,1,2` has six
fields, its first field is not a decimal number, and yet `PORT` replies 200,
leaves passive mode and records the target `a.b.c.d`, port 258. -/
theorem handlePORT_address_unchecked :
    (stringsSplit "a,b,c,d,1,2".toList ',').length = 6 ∧
    Atoi "a".toList = none ∧
    handleSecurity (pureHandler handlePORT) loggedIn "a,b,c,d,1,2".toList sampleOutcome =
      ({ loggedIn with pasv := false, dataHost := "a.b.c.d".toList, dataPort := 258 },
        [Event.reply 200 "OK".toList]) := by
  decide

/-- Claim C7 as amended: in an authenticated session, for an argument of
exactly six fields whose fifth or sixth field is rejected by `Atoi`, the
table entry of `PORT` ends with the reply 501, which is its only reply, and
leaves `pasv`, `dataPort`, `listener` and `running` as they were. -/
theorem handlePORT_bad_port_field (c : FTPConn) (arg : Str) (o : Outcome)
    (hid : c.identified = true) (hlen : (stringsSplit arg ',').length = 6)
    (hbad : Atoi ((stringsSplit arg ',').getD 4 []) = none ∨
      Atoi ((stringsSplit arg ',').getD 5 []) = none) :
    commands "PORT".toList = some (handleSecurity (pureHandler handlePORT)) ∧
    (∃ pre, (handleSecurity (pureHandler handlePORT) c arg o).2 =
      pre ++ [Event.reply 501 "Parameter error".toList] ∧
      ∀ e ∈ pre, ∀ code msg, e ≠ Event.reply code msg) ∧
    (handleSecurity (pureHandler handlePORT) c arg o).1.pasv = c.pasv ∧
    (handleSecurity (pureHandler handlePORT) c arg o).1.dataPort = c.dataPort ∧
    (handleSecurity (pureHandler handlePORT) c arg o).1.listener = c.listener ∧
    (handleSecurity (pureHandler handlePORT) c arg o).1.running = c.running := by
  refine ⟨rfl, ?_⟩
  have hne : ¬ (stringsSplit arg ',').length ≠ 6 := by simp [hlen]
  simp only [handleSecurity, hid, if_true, pureHandler, handlePORT, if_neg hne]
  rcases hbad with h | h
  · rw [h]
    refine ⟨⟨(closeDataConn c).2 ++ [Event.logErr], by simp [handleErr, sendMsg], ?_⟩, ?_⟩
    · unfold closeDataConn; cases c.dataConn <;> simp
    · unfold closeDataConn; cases c.dataConn <;> simp
  · cases h4 : Atoi ((stringsSplit arg ',').getD 4 []) with
    | none =>
      refine ⟨⟨(closeDataConn c).2 ++ [Event.logErr], by simp [handleErr, sendMsg], ?_⟩, ?_⟩
      · unfold closeDataConn; cases c.dataConn <;> simp
      · unfold closeDataConn; cases c.dataConn <;> simp
    | some p1 =>
      rw [h]
      refine ⟨⟨(closeDataConn c).2, by simp [sendMsg], ?_⟩, ?_⟩
      · unfold closeDataConn; cases c.dataConn <;> simp
      · unfold closeDataConn; cases c.dataConn <;> simp

/-- Witness of C7: the fifth field is `x`. -/
theorem handlePORT_bad_port_field_witness :
    (stringsSplit "10,0,0,1,x,5".toList ',').length = 6 ∧
    Atoi ((stringsSplit "10,0,0,1,x,5".toList ',').getD 4 []) = none ∧
    (handleSecurity (pureHandler handlePORT) loggedIn "10,0,0,1,x,5".toList sampleOutcome).1.pasv
      = true ∧
    (handleSecurity (pureHandler handlePORT) loggedIn
      "10,0,0,1,x,5".toList sampleOutcome).1.dataPort = 0 :=
  ⟨by decide, by decide,
    (handlePORT_bad_port_field loggedIn "10,0,0,1,x,5".toList sampleOutcome rfl (by decide)
      (Or.inl (by decide))).2.2.1,
    (handlePORT_bad_port_field loggedIn "10,0,0,1,x,5".toList sampleOutcome rfl (by decide)
      (Or.inl (by decide))).2.2.2.1⟩

/-- Counterexample to C8 as stated: the argument
`1,2,3,4,36028797018963968,7` has six fields of decimal numbers, `Atoi`
reads the last two as `p1 = 36028797018963968` and `p2 = 7`, and `PORT`
after `USER anonymous` replies 200; but the recorded port is
`-9223372036854775801`, not `p1*256 + p2 = 9223372036854775815`. -/
theorem handlePORT_port_wraps :
    stringsSplit "1,2,3,4,36028797018963968,7".toList ',' =
      ["1".toList, "2".toList, "3".toList, "4".toList, "36028797018963968".toList,
        "7".toList] ∧
    Atoi "36028797018963968".toList = some 36028797018963968 ∧
    Atoi "7".toList = some 7 ∧
    replies (loop (NewFTPConn sampleConfig none)
      [("USER anonymous".toList, sampleOutcome),
        ("PORT 1,2,3,4,36028797018963968,7".toList, sampleOutcome)]).2 =
      [(230, "OK".toList), (200, "OK".toList)] ∧
    (loop (NewFTPConn sampleConfig none)
      [("USER anonymous".toList, sampleOutcome),
        ("PORT 1,2,3,4,36028797018963968,7".toList, sampleOutcome)]).1.dataPort =
      -9223372036854775801 ∧
    (36028797018963968 : Int) * 256 + 7 = 9223372036854775815 := by
  decide

set_option maxRecDepth 1000000 in
theorem itoa_octet_no_comma : ∀ n : Fin 256, ',' ∉ itoa (n.val : Int) := by
  decide

theorem map_dots_of_no_dot (h : Str) (hh : '.' ∉ h) :
    h.map (fun ch => if ch = '.' then ',' else ch) = h := by
  induction h with
  | nil => rfl
  | cons a t ih =>
    have ha : a ≠ '.' := fun e => hh (e ▸ List.mem_cons_self _ _)
    have ht : '.' ∉ t := fun e => hh (List.mem_cons_of_mem _ e)
    simp [ha, ih ht]

/-- The text `PASV` announces for the address `h1.h2.h3.h4` splits at the
commas into the four address fields and the two port fields. -/
theorem pasvFields_split (h1 h2 h3 h4 : Str) (port : Nat) (hp : port ≤ 65535)
    (hh : ∀ h ∈ [h1, h2, h3, h4], ',' ∉ h ∧ '.' ∉ h) :
    stringsSplit (pasvFields (h1 ++ '.' :: h2 ++ '.' :: h3 ++ '.' :: h4) port) ',' =
      [h1, h2, h3, h4, itoa (pasvP1 port), itoa (pasvP2 port)] := by
  obtain ⟨a, b, _⟩ := pasv_fields port hp
  have c1 := hh h1 (by simp)
  have c2 := hh h2 (by simp)
  have c3 := hh h3 (by simp)
  have c4 := hh h4 (by simp)
  have e : pasvFields (h1 ++ '.' :: h2 ++ '.' :: h3 ++ '.' :: h4) port =
      [','].intercalate [h1, h2, h3, h4, itoa (pasvP1 port), itoa (pasvP2 port)] := by
    simp [pasvFields, List.intercalate, map_dots_of_no_dot, c1.2, c2.2, c3.2, c4.2]
  unfold stringsSplit
  rw [e]
  apply List.splitOn_intercalate
  · intro l hl
    simp only [List.mem_cons, List.mem_singleton, List.not_mem_nil, or_false] at hl
    rcases hl with rfl | rfl | rfl | rfl | rfl | rfl
    · exact c1.1
    · exact c2.1
    · exact c3.1
    · exact c4.1
    · exact itoa_octet_no_comma ⟨pasvP1 port, by omega⟩
    · exact itoa_octet_no_comma ⟨pasvP2 port, by omega⟩
  · simp

/-- Claim C8 as amended (port encoding round trip): a successful `PASV`
replies 227 with the text `Entering Passive Mode (` `pasvFields` `)`, whose
last two fields are `port>>8&0xFF` and `port&0xFF` in decimal; for every
port up to 65535 these two are at most 255, are read back by `Atoi`, and
give the port again under the rule of `PORT`; `PORT` applied to the text
announced for the address `h1.h2.h3.h4` and such a port records exactly
this address and this port, leaves passive mode and replies 200; and for
every argument of six fields whose last two are read by `Atoi` as `p1` and
`p2`, `PORT` records the first four fields joined by dots as `dataHost` and
the 64-bit Go value of `p1*256 + p2` as `dataPort`, which is exactly
`p1*256 + p2` whenever that fits in an `int`, leaves passive mode and
replies 200. -/
theorem pasv_port_round_trip :
    (∀ (c : FTPConn) (arg : Str) (o : Outcome) (ip : Str) (l : Listener),
      c.identified = true → o.externalIP = some ip → o.listen = some l →
      (handleSecurity handlePASV c arg o).1 = { c with listener := some l, pasv := true } ∧
      replies (handleSecurity handlePASV c arg o).2 =
        [(227, "Entering Passive Mode (".toList ++ pasvFields ip l.port ++ [')'])]) ∧
    (∀ port : Nat, port ≤ 65535 →
      pasvP1 port ≤ 255 ∧ pasvP2 port ≤ 255 ∧
      wrapInt (wrapInt ((pasvP1 port : Int) * 256) + (pasvP2 port : Int)) = (port : Int) ∧
      Atoi (itoa (pasvP1 port : Int)) = some (pasvP1 port : Int) ∧
      Atoi (itoa (pasvP2 port : Int)) = some (pasvP2 port : Int)) ∧
    (∀ (c : FTPConn) (o : Outcome) (h1 h2 h3 h4 : Str) (port : Nat),
      c.identified = true → port ≤ 65535 →
      (∀ h ∈ [h1, h2, h3, h4], ',' ∉ h ∧ '.' ∉ h) →
      handleSecurity (pureHandler handlePORT) c
          (pasvFields (h1 ++ '.' :: h2 ++ '.' :: h3 ++ '.' :: h4) port) o =
        ({ (closeDataConn c).1 with
            dataHost := h1 ++ '.' :: h2 ++ '.' :: h3 ++ '.' :: h4,
            dataPort := (port : Int), pasv := false },
          (closeDataConn c).2 ++ [Event.reply 200 "OK".toList])) ∧
    (∀ (c : FTPConn) (arg : Str) (o : Outcome) (h1 h2 h3 h4 f5 f6 : Str) (p1 p2 : Int),
      c.identified = true → stringsSplit arg ',' = [h1, h2, h3, h4, f5, f6] →
      Atoi f5 = some p1 → Atoi f6 = some p2 →
      handleSecurity (pureHandler handlePORT) c arg o =
        ({ (closeDataConn c).1 with
            dataHost := h1 ++ '.' :: h2 ++ '.' :: h3 ++ '.' :: h4,
            dataPort := wrapInt (wrapInt (p1 * 256) + p2), pasv := false },
          (closeDataConn c).2 ++ [Event.reply 200 "OK".toList]) ∧
      (-(2 ^ 63) ≤ p1 * 256 + p2 → p1 * 256 + p2 < 2 ^ 63 →
        (handleSecurity (pureHandler handlePORT) c arg o).1.dataPort = p1 * 256 + p2)) := by
  have num : ∀ port : Nat, port ≤ 65535 →
      pasvP1 port ≤ 255 ∧ pasvP2 port ≤ 255 ∧
      wrapInt (wrapInt ((pasvP1 port : Int) * 256) + (pasvP2 port : Int)) = (port : Int) ∧
      Atoi (itoa (pasvP1 port : Int)) = some (pasvP1 port : Int) ∧
      Atoi (itoa (pasvP2 port : Int)) = some (pasvP2 port : Int) := by
    intro port hp
    obtain ⟨a, b, e⟩ := pasv_fields port hp
    refine ⟨a, b, ?_, ?_, ?_⟩
    · rw [wrapInt_add_wrapInt, wrapInt_of_fits]
      · exact_mod_cast e
      · have : (0 : Int) ≤ (pasvP1 port : Int) * 256 + (pasvP2 port : Int) := by positivity
        linarith
      · have : (pasvP1 port : Int) * 256 + (pasvP2 port : Int) = (port : Int) := by
          exact_mod_cast e
        rw [this]
        have : (port : Int) ≤ 65535 := by exact_mod_cast hp
        linarith
    · exact atoi_itoa_octet ⟨pasvP1 port, by omega⟩
    · exact atoi_itoa_octet ⟨pasvP2 port, by omega⟩
  have gen : ∀ (c : FTPConn) (arg : Str) (o : Outcome) (h1 h2 h3 h4 f5 f6 : Str) (p1 p2 : Int),
      c.identified = true → stringsSplit arg ',' = [h1, h2, h3, h4, f5, f6] →
      Atoi f5 = some p1 → Atoi f6 = some p2 →
      handleSecurity (pureHandler handlePORT) c arg o =
        ({ (closeDataConn c).1 with
            dataHost := h1 ++ '.' :: h2 ++ '.' :: h3 ++ '.' :: h4,
            dataPort := wrapInt (wrapInt (p1 * 256) + p2), pasv := false },
          (closeDataConn c).2 ++ [Event.reply 200 "OK".toList]) := by
    intro c arg o h1 h2 h3 h4 f5 f6 p1 p2 hid hs h5 h6
    simp only [handleSecurity, hid, if_true, pureHandler, handlePORT, hs]
    simp [h5, h6, sendMsg, stringsJoin, List.intercalate]
  refine ⟨?_, num, ?_, ?_⟩
  · intro c arg o ip l hid h1 h2
    simp only [handleSecurity, hid, if_true, handlePASV, h1, h2, sendMsg]
    cases c.listener <;> simp [replies, pasvMsg, pasvFields, hid]
  · intro c o h1 h2 h3 h4 port hid hp hh
    obtain ⟨_, _, e, a5, a6⟩ := num port hp
    rw [gen c _ o h1 h2 h3 h4 _ _ _ _ hid (pasvFields_split h1 h2 h3 h4 port hp hh) a5 a6, e]
  · intro c arg o h1 h2 h3 h4 f5 f6 p1 p2 hid hs h5 h6
    have hr := gen c arg o h1 h2 h3 h4 f5 f6 p1 p2 hid hs h5 h6
    refine ⟨hr, fun a b => ?_⟩
    rw [hr]
    show wrapInt (wrapInt (p1 * 256) + p2) = p1 * 256 + p2
    rw [wrapInt_add_wrapInt, wrapInt_of_fits _ a b]

/-- Witness of C8: after `USER anonymous`, `PASV` on port 50000 of
`10.0.0.1` announces `10,0,0,1,195,80`, and `PORT` with this text records
`10.0.0.1` and port 50000. -/
theorem pasv_port_round_trip_witness :
    anonymousSession.identified = true ∧
    replies (handleSecurity handlePASV anonymousSession [] passiveOutcome).2 =
      [(227, "Entering Passive Mode (10,0,0,1,195,80)".toList)] ∧
    pasvFields "10.0.0.1".toList 50000 = "10,0,0,1,195,80".toList ∧
    handleSecurity (pureHandler handlePORT) anonymousSession "10,0,0,1,195,80".toList
        sampleOutcome =
      ({ anonymousSession with dataHost := "10.0.0.1".toList, dataPort := 50000 },
        [Event.reply 200 "OK".toList]) :=
  ⟨rfl,
    ((pasv_port_round_trip.1 anonymousSession [] passiveOutcome "10.0.0.1".toList ⟨1, 50000⟩
      rfl rfl rfl).2).trans (by decide),
    by decide,
    (pasv_port_round_trip.2.2.1 anonymousSession sampleOutcome "10".toList "0".toList
      "0".toList "1".toList 50000 rfl (by decide) (by decide)).trans (by decide)⟩

/-- Counterexample to C9 as stated: for `STOR  a.txt` the loop passes the
empty argument where the claim says `a.txt`, and for `RETR my file` it
passes `my` where the claim says `my file`. -/
theorem parseLine_second_field_only :
    parseLine "STOR  a.txt".toList = some ("STOR".toList, []) ∧
    specParse "STOR  a.txt".toList = ("STOR".toList, "a.txt".toList) ∧
    parseLine "RETR my file".toList = some ("RETR".toList, "my".toList) ∧
    specParse "RETR my file".toList = ("RETR".toList, "my file".toList) := by
  decide

/-- Claim C9 as amended: for every line, the command is the text before the
first space and the argument is the text between the first and the second
space (empty if the line has no space); the loop looks up the upper-cased
command, replies 500 if it is unknown, and otherwise runs its handler on
that argument; `list`, `List` and `LIST` upper-case to the same key. -/
theorem stepLine_fields (c : FTPConn) (line : Str) (o : Outcome) :
    parseLine line = some (line.takeWhile (· ≠ ' '),
      ((line.dropWhile (· ≠ ' ')).drop 1).takeWhile (· ≠ ' ')) ∧
    stepLine c line o =
      (match commands (stringsToUpper (line.takeWhile (· ≠ ' '))) with
        | none => (c, [Event.reply 500 "Command Not Found".toList], true)
        | some h =>
          ((h c (((line.dropWhile (· ≠ ' ')).drop 1).takeWhile (· ≠ ' ')) o).1,
            (h c (((line.dropWhile (· ≠ ' ')).drop 1).takeWhile (· ≠ ' ')) o).2,
            (h c (((line.dropWhile (· ≠ ' ')).drop 1).takeWhile (· ≠ ' ')) o).1.running &&
              decide (Event.crash ∉
                (h c (((line.dropWhile (· ≠ ' ')).drop 1).takeWhile (· ≠ ' ')) o).2))) ∧
    (stringsToUpper "list".toList = "LIST".toList ∧
      stringsToUpper "List".toList = "LIST".toList ∧
      stringsToUpper "LIST".toList = "LIST".toList) := by
  refine ⟨parseLine_eq line, ?_, by decide⟩
  simp only [stepLine, parseLine_eq line, sendMsg]

/-- Claim C10, the behaviour of the code where it departs from the claim:
the empty line splits into one empty field, so the branch for zero fields
is never taken, for no line at all; the loop answers the empty line with
500, leaves the state unchanged and goes on with the lines that follow. -/
theorem stepLine_empty_line (c : FTPConn) (o : Outcome) :
    parseLine [] = some ([], []) ∧
    stepLine c [] o = (c, [Event.reply 500 "Command Not Found".toList], true) ∧
    (∀ rest, loop c (([], o) :: rest) =
      ((loop c rest).1, Event.reply 500 "Command Not Found".toList :: (loop c rest).2)) ∧
    ∀ line, parseLine line ≠ none := by
  have hp : parseLine [] = some ([], []) := by decide
  have hc : commands (stringsToUpper []) = none := rfl
  have hs : stepLine c [] o = (c, [Event.reply 500 "Command Not Found".toList], true) := by
    simp only [stepLine, hp, hc, sendMsg]
  refine ⟨hp, hs, fun rest => ?_, fun line => by rw [parseLine_eq]; simp⟩
  simp only [loop, hs]
  rfl

/-! ## Lemmas on the session -/

theorem commands_mem (verb : Str) (h : Handler) (hc : commands verb = some h) :
    (verb, h) ∈ buildCommandMap := by
  unfold commands at hc
  obtain ⟨l1, l2, e, _⟩ := List.lookup_eq_some_iff.1 hc
  rw [e]
  simp

/-- The two ways a turn of the loop can go. -/
theorem stepLine_cases (c : FTPConn) (line : Str) (o : Outcome) :
    ∃ command arg, parseLine line = some (command, arg) ∧
      ((commands (stringsToUpper command) = none ∧
          stepLine c line o = (c, [Event.reply 500 "Command Not Found".toList], true)) ∨
        (∃ h, commands (stringsToUpper command) = some h ∧
          stepLine c line o = ((h c arg o).1, (h c arg o).2,
            (h c arg o).1.running && decide (Event.crash ∉ (h c arg o).2)))) := by
  refine ⟨_, _, parseLine_eq line, ?_⟩
  simp only [stepLine, parseLine_eq line, sendMsg]
  cases hc : commands (stringsToUpper (line.takeWhile (· ≠ ' '))) with
  | none => left; exact ⟨rfl, rfl⟩
  | some h => right; exact ⟨h, rfl, rfl⟩

theorem stepLine_preserves (P : FTPConn → Prop)
    (hh : ∀ p ∈ buildCommandMap, ∀ c arg o, P c → P (p.2 c arg o).1) :
    ∀ c line o, P c → P (stepLine c line o).1 := by
  intro c line o hP
  obtain ⟨command, arg, _, h | ⟨h, hc, e⟩⟩ := stepLine_cases c line o
  · rw [h.2]; exact hP
  · rw [e]; exact hh _ (commands_mem _ _ hc) c arg o hP

theorem loop_preserves (P : FTPConn → Prop)
    (hstep : ∀ c line o, P c → P (stepLine c line o).1) :
    ∀ input c, P c → P (loop c input).1 := by
  intro input
  induction input with
  | nil => exact fun c h => h
  | cons x rest ih =>
    intro c hP
    obtain ⟨line, o⟩ := x
    have h1 := hstep c line o hP
    unfold loop
    rcases hs : stepLine c line o with ⟨c1, e1, b⟩
    rw [hs] at h1
    cases b with
    | true => exact ih c1 h1
    | false => exact h1

theorem handleSecurity_preserves (P : FTPConn → Prop) (f : Handler)
    (hf : ∀ c arg o, P c → P (f c arg o).1) :
    ∀ c arg o, P c → P (handleSecurity f c arg o).1 := by
  intro c arg o hP
  unfold handleSecurity
  split
  · exact hf c arg o hP
  · exact hP

theorem closeDataConn_fst (c : FTPConn) : (closeDataConn c).1 = { c with dataConn := none } := by
  unfold closeDataConn
  cases h : c.dataConn with
  | none => cases c; simp_all
  | some d => rfl

theorem closeDataConn_snd (c : FTPConn) :
    (closeDataConn c).2 = (match c.dataConn with
      | some d => [Event.dataClose d]
      | none => []) := by
  unfold closeDataConn
  cases h : c.dataConn <;> rfl

theorem closeDataConn_eq (c : FTPConn) :
    closeDataConn c = ({ c with dataConn := none }, (match c.dataConn with
      | some d => [Event.dataClose d]
      | none => [])) := by
  rw [← closeDataConn_fst, ← closeDataConn_snd]

/-- `dataConnConn` by cases, with the first close spelled out. -/
theorem dataConnConn_eq (c : FTPConn) (o : Outcome) :
    dataConnConn c o =
      if c.pasv then
        match c.listener with
        | none => ({ c with dataConn := none }, (closeDataConn c).2, ConnResult.crash)
        | some l =>
          match o.accept with
          | none =>
            ({ c with dataConn := none }, (closeDataConn c).2 ++ [Event.accept l], ConnResult.err)
          | some d =>
            ({ c with dataConn := some d }, (closeDataConn c).2 ++ [Event.accept l],
              ConnResult.ok)
      else
        match o.dial with
        | none =>
          ({ c with dataConn := none },
            (closeDataConn c).2 ++ [Event.dial (c.dataHost ++ ':' :: itoa c.dataPort)],
            ConnResult.err)
        | some d =>
          ({ c with dataConn := some d },
            (closeDataConn c).2 ++ [Event.dial (c.dataHost ++ ':' :: itoa c.dataPort)],
            ConnResult.ok) := by
  unfold dataConnConn
  rw [closeDataConn_eq]

theorem handleLIST_fst (c : FTPConn) (arg : Str) (o : Outcome) :
    (handleLIST c arg o).1 = { c with dataConn := none } := by
  unfold handleLIST
  rw [dataConnConn_eq]
  cases c.pasv <;> cases c.listener <;> cases o.accept <;> cases o.dial <;>
    simp [closeDataConn]

theorem handleRETR_fst (c : FTPConn) (arg : Str) (o : Outcome) :
    (handleRETR c arg o).1 = { c with dataConn := none } := by
  unfold handleRETR
  rw [dataConnConn_eq]
  cases c.pasv <;> cases c.listener <;> cases o.accept <;> cases o.dial <;>
    simp [closeDataConn]

theorem handleSTOR_fst (c : FTPConn) (arg : Str) (o : Outcome) :
    (handleSTOR c arg o).1 = { c with dataConn := none } := by
  unfold handleSTOR
  rw [dataConnConn_eq]
  cases c.pasv <;> cases c.listener <;> cases o.accept <;> cases o.dial <;>
    simp [closeDataConn]

theorem dataSockets_append (o : Outcome) (a b : List Event) :
    ∀ cur, dataSockets o cur (a ++ b) =
      (dataSockets o cur a).bind (fun cur1 => dataSockets o cur1 b) := by
  induction a with
  | nil => intro cur; simp [dataSockets]
  | cons e es ih =>
    intro cur
    cases e <;> simp only [List.cons_append, dataSockets] <;>
      first
        | exact ih _
        | (split <;> first | exact ih _ | rfl)

theorem dataSockets_writes (o : Outcome) (d : Nat) (infos : List FileInfo) :
    dataSockets o (some d) (infos.map (fun info => Event.dataWrite d (listLine info))) =
      some (some d) := by
  induction infos with
  | nil => rfl
  | cons i is ih => simp [dataSockets, ih]

theorem dataConnConn_sockets (c : FTPConn) (o : Outcome) :
    dataSockets o c.dataConn (dataConnConn c o).2.1 = some (dataConnConn c o).1.dataConn := by
  rw [dataConnConn_eq, closeDataConn_snd]
  cases c.pasv <;> cases c.listener <;> cases ha : o.accept <;> cases hd : o.dial <;>
    cases c.dataConn <;> simp [dataSockets, ha, hd]

theorem handleLIST_sockets (c : FTPConn) (arg : Str) (o : Outcome) :
    dataSockets o c.dataConn (handleLIST c arg o).2 = some none := by
  unfold handleLIST
  rw [dataConnConn_eq, closeDataConn_snd]
  cases c.pasv <;> cases c.listener <;> cases ha : o.accept <;> cases hd : o.dial <;>
    cases c.dataConn <;> cases o.readDir <;>
    simp [dataSockets, closeDataConn, sendMsg, handleErr, dataSockets_append,
      dataSockets_writes, ha, hd]

theorem handleRETR_sockets (c : FTPConn) (arg : Str) (o : Outcome) :
    dataSockets o c.dataConn (handleRETR c arg o).2 = some none := by
  unfold handleRETR
  rw [dataConnConn_eq, closeDataConn_snd]
  cases c.pasv <;> cases c.listener <;> cases ha : o.accept <;> cases hd : o.dial <;>
    cases c.dataConn <;> cases o.openOk <;> cases o.copyOk <;>
    simp [dataSockets, closeDataConn, sendMsg, handleErr, dataSockets_append, ha, hd]

theorem handleSTOR_sockets (c : FTPConn) (arg : Str) (o : Outcome) :
    dataSockets o c.dataConn (handleSTOR c arg o).2 = some none := by
  unfold handleSTOR
  rw [dataConnConn_eq, closeDataConn_snd]
  cases c.pasv <;> cases c.listener <;> cases ha : o.accept <;> cases hd : o.dial <;>
    cases c.dataConn <;> cases o.createOk <;> cases o.copyOk <;>
    simp [dataSockets, closeDataConn, sendMsg, handleErr, dataSockets_append, ha, hd]

theorem handleSecurity_events (Q : FTPConn → Outcome → List Event → Prop)
    (hq : ∀ c o, Q c o [Event.reply 530 "Not logged in".toList]) (f : Handler)
    (hf : ∀ c arg o, Q c o (f c arg o).2) :
    ∀ c arg o, Q c o (handleSecurity f c arg o).2 := by
  intro c arg o
  unfold handleSecurity
  split
  · exact hf c arg o
  · exact hq c o

/-- Every table entry leaves no data connection in the state when there
was none before. -/
theorem table_dataConn : ∀ p ∈ buildCommandMap, ∀ (c : FTPConn) (arg : Str) (o : Outcome),
    c.dataConn = none → (p.2 c arg o).1.dataConn = none := by
  intro p hp
  simp only [buildCommandMap, List.mem_cons, List.mem_singleton, List.not_mem_nil,
    or_false] at hp
  rcases hp with h | h | h | h | h | h | h | h | h | h | h | h | h | h | h | h | h | h | h | h <;>
    subst h <;> simp only <;>
    first
      | (apply handleSecurity_preserves (fun c => c.dataConn = none)
         intro c arg o hd
         simp only [pureHandler, handleLIST_fst, handleRETR_fst, handleSTOR_fst, handleCWD,
           handleXCWD, handleCDUP, handleRNFR, handleRNTO, handleDELE, handleRMD, handleMKD,
           handleXMKD, handlePWD, handleQUIT, handlePORT, handlePASV, handleTYPE, handleSYST,
           closeDataConn_eq]
         repeat' split
         all_goals simp [hd])
      | (intro c arg o hd
         simp only [pureHandler, handleUSER, handlePASS]
         repeat' split
         all_goals simp [hd])

/-- Every table entry, started without an open data connection, keeps to
the discipline of the data sockets and ends without an open one. -/
theorem table_sockets : ∀ p ∈ buildCommandMap, ∀ (c : FTPConn) (arg : Str) (o : Outcome),
    c.dataConn = none → dataSockets o none (p.2 c arg o).2 = some none := by
  intro p hp
  simp only [buildCommandMap, List.mem_cons, List.mem_singleton, List.not_mem_nil,
    or_false] at hp
  rcases hp with h | h | h | h | h | h | h | h | h | h | h | h | h | h | h | h | h | h | h | h <;>
    subst h <;> simp only <;> intro c arg o hd <;>
    first
      | (refine handleSecurity_events
          (fun c o es => c.dataConn = none → dataSockets o none es = some none)
          (fun _ _ _ => rfl) _ ?_ c arg o hd
         intro c arg o hd
         first
           | (have h1 := handleLIST_sockets c arg o
              rw [hd] at h1
              exact h1)
           | (have h1 := handleRETR_sockets c arg o
              rw [hd] at h1
              exact h1)
           | (have h1 := handleSTOR_sockets c arg o
              rw [hd] at h1
              exact h1)
           | (simp only [pureHandler, handleCWD,
                handleXCWD, handleCDUP, handleRNFR, handleRNTO, handleDELE, handleRMD, handleMKD,
                handleXMKD, handlePWD, handleQUIT, handlePORT, handlePASV, handleTYPE, handleSYST,
                closeDataConn_eq, hd, sendMsg, handleErr]
              repeat' split
              all_goals simp [dataSockets]))
      | (simp only [pureHandler, handleUSER, handlePASS, sendMsg]
         repeat' split
         all_goals simp [dataSockets])

theorem cleanLoop_slashes (r : Bool) (s : Str) (hs : ∀ x ∈ s, x = '/') :
    ∀ (fuel : Nat) (out : Str) (dd : Nat), cleanLoop r fuel s out dd = out := by
  induction s with
  | nil => intro fuel out dd; cases fuel <;> rfl
  | cons a s ih =>
    intro fuel out dd
    have ha : a = '/' := hs a (List.mem_cons_self _ _)
    subst ha
    cases fuel with
    | zero => rfl
    | succ f =>
      simp only [cleanLoop, if_true]
      exact ih (fun x hx => hs x (List.mem_cons_of_mem _ hx)) f out dd

theorem stop_append_iff (t s : Str) (hs : ∀ x ∈ s, x = '/') :
    (t ++ s = [] ∨ (t ++ s).head? = some '/') ↔ (t = [] ∨ t.head? = some '/') := by
  cases t with
  | nil =>
    cases s with
    | nil => simp
    | cons a s => simp [hs a (List.mem_cons_self _ _)]
  | cons a t => simp

theorem takeWhile_append_slashes (t s : Str) (hs : ∀ x ∈ s, x = '/') :
    (t ++ s).takeWhile (· ≠ '/') = t.takeWhile (· ≠ '/') ∧
    (t ++ s).dropWhile (· ≠ '/') = t.dropWhile (· ≠ '/') ++ s := by
  induction t with
  | nil =>
    cases s with
    | nil => simp
    | cons a s => simp [hs a (List.mem_cons_self _ _)]
  | cons a t ih =>
    by_cases h : a = '/'
    · subst h; simp
    · rw [List.cons_append, takeWhile_cons_ne a _ h, dropWhile_cons_ne a _ h,
        takeWhile_cons_ne a _ h, dropWhile_cons_ne a _ h, ih.1, ih.2]
      exact ⟨rfl, rfl⟩

theorem cleanLoop_cons (r : Bool) (fuel : Nat) (c : Char) (t out : Str) (dotdot : Nat) :
    cleanLoop r (fuel + 1) (c :: t) out dotdot =
      if c = '/' then cleanLoop r fuel t out dotdot
      else if c = '.' ∧ (t = [] ∨ t.head? = some '/') then cleanLoop r fuel t out dotdot
      else if c = '.' ∧ t.head? = some '.' ∧ (t.tail = [] ∨ t.tail.head? = some '/') then
        if out.length > dotdot then
          cleanLoop r fuel t.tail (out.take (backtrack out dotdot (out.length - 1))) dotdot
        else if !r then
          cleanLoop r fuel t.tail ((if out.length > 0 then out ++ ['/'] else out) ++ ['.', '.'])
            ((if out.length > 0 then out ++ ['/'] else out).length + 2)
        else
          cleanLoop r fuel t.tail out dotdot
      else
        cleanLoop r fuel ((c :: t).dropWhile (· ≠ '/'))
          ((if (r ∧ out.length ≠ 1) ∨ (!r ∧ out.length ≠ 0) then out ++ ['/'] else out) ++
            (c :: t).takeWhile (· ≠ '/')) dotdot := by
  rfl

/-- Slashes at the end of the path, and fuel beyond its length, change
nothing in the loop of `path.Clean`. -/
theorem cleanLoop_trail (r : Bool) (s : Str) (hs : ∀ x ∈ s, x = '/') :
    ∀ (fuel : Nat) (rest out : Str) (dd fuel2 : Nat),
      rest.length ≤ fuel → (rest ++ s).length ≤ fuel2 →
      cleanLoop r fuel2 (rest ++ s) out dd = cleanLoop r fuel rest out dd := by
  intro fuel
  induction fuel with
  | zero =>
    intro rest out dd fuel2 hl _
    have : rest = [] := List.length_eq_zero.1 (by omega)
    subst this
    rw [List.nil_append, cleanLoop_slashes r s hs]
    rfl
  | succ fuel ih =>
    intro rest out dd fuel2 hl hl2
    cases rest with
    | nil =>
      rw [List.nil_append, cleanLoop_slashes r s hs]
      rfl
    | cons c t =>
      have hlt : t.length ≤ fuel := by simpa using hl
      rw [List.cons_append, List.length_cons] at hl2
      obtain ⟨f2, rfl⟩ : ∃ f2, fuel2 = f2 + 1 := ⟨fuel2 - 1, by omega⟩
      have hlt2 : (t ++ s).length ≤ f2 := by omega
      rw [List.cons_append, cleanLoop_cons, cleanLoop_cons]
      by_cases h1 : c = '/'
      · rw [if_pos h1, if_pos h1]
        exact ih t out dd f2 hlt hlt2
      · rw [if_neg h1, if_neg h1]
        by_cases h2 : c = '.' ∧ (t = [] ∨ t.head? = some '/')
        · have h2' : c = '.' ∧ (t ++ s = [] ∨ (t ++ s).head? = some '/') :=
            ⟨h2.1, (stop_append_iff t s hs).2 h2.2⟩
          rw [if_pos h2, if_pos h2']
          exact ih t out dd f2 hlt hlt2
        · have h2' : ¬ (c = '.' ∧ (t ++ s = [] ∨ (t ++ s).head? = some '/')) :=
            fun h => h2 ⟨h.1, (stop_append_iff t s hs).1 h.2⟩
          rw [if_neg h2, if_neg h2']
          have key : (c = '.' ∧ (t ++ s).head? = some '.' ∧
                ((t ++ s).tail = [] ∨ (t ++ s).tail.head? = some '/')) ↔
              (c = '.' ∧ t.head? = some '.' ∧ (t.tail = [] ∨ t.tail.head? = some '/')) := by
            cases t with
            | nil =>
              cases s with
              | nil => simp
              | cons b s' =>
                have := hs b (List.mem_cons_self _ _)
                subst this
                simp
            | cons a t' =>
              have := stop_append_iff t' s hs
              simp only [List.cons_append, List.head?_cons, List.tail_cons]
              rw [this]
          by_cases h3 : c = '.' ∧ t.head? = some '.' ∧ (t.tail = [] ∨ t.tail.head? = some '/')
          · have hne : t ≠ [] := by rintro rfl; simp at h3
            have et : (t ++ s).tail = t.tail ++ s := List.tail_append_of_ne_nil hne
            have hlt3 : t.tail.length ≤ fuel := by
              have : t.tail.length ≤ t.length := by simp
              omega
            have hlt4 : (t.tail ++ s).length ≤ f2 := by
              have : t.tail.length ≤ t.length := by simp
              rw [List.length_append] at hlt2 ⊢
              omega
            rw [if_pos h3, if_pos (key.2 h3), et]
            split
            · exact ih _ _ dd f2 hlt3 hlt4
            · split
              · exact ih _ _ _ f2 hlt3 hlt4
              · exact ih _ _ dd f2 hlt3 hlt4
          · have e := takeWhile_append_slashes (c :: t) s hs
            rw [List.cons_append] at e
            have hld : ((c :: t).dropWhile (· ≠ '/')).length ≤ fuel := by
              have := dropWhile_length_le t
              rw [dropWhile_cons_ne c t h1]
              omega
            have hld2 : ((c :: t).dropWhile (· ≠ '/') ++ s).length ≤ f2 := by
              have := dropWhile_length_le t
              rw [dropWhile_cons_ne c t h1]
              rw [List.length_append] at hlt2 ⊢
              omega
            rw [if_neg h3, if_neg (fun h => h3 (key.1 h)), e.1, e.2]
            exact ih _ _ dd f2 hld hld2

/-- Slashes at the end do not change the result of `path.Clean`. -/
theorem Clean_trailing (p s : Str) (hp : p ≠ []) (hs : ∀ x ∈ s, x = '/') :
    Clean (p ++ s) = Clean p := by
  obtain ⟨a, t, rfl⟩ : ∃ a t, p = a :: t := by
    cases p with
    | nil => exact absurd rfl hp
    | cons a t => exact ⟨a, t, rfl⟩
  unfold Clean
  simp only [List.cons_append, List.cons_ne_nil, if_false, List.head?_cons, List.tail_cons,
    List.length_cons]
  rw [cleanLoop_trail true s hs (t.length + 1) t ['/'] 1 ((t ++ s).length + 1) (by omega)
      (by omega),
    ← List.cons_append,
    cleanLoop_trail false s hs (t.length + 1) (a :: t) [] 0 ((t ++ s).length + 1) (by simp)
      (by simp)]

/-- Only `CWD`, `XCWD` and `CDUP`, in an authenticated session and on a
target that `os.Stat` reports as a directory, change the working
directory, and they set it to a virtual path. -/
theorem table_currDir : ∀ p ∈ buildCommandMap, ∀ (c : FTPConn) (arg : Str) (o : Outcome),
    (p.2 c arg o).1.currDir = c.currDir ∨
      (p.1 ∈ ["CWD".toList, "XCWD".toList, "CDUP".toList] ∧ c.identified = true ∧
        o.stat = StatResult.ok true ∧ ∃ a, (p.2 c arg o).1.currDir = (parsePath c a).1) := by
  intro p hp
  simp only [buildCommandMap, List.mem_cons, List.mem_singleton, List.not_mem_nil,
    or_false] at hp
  rcases hp with h | h | h | h | h | h | h | h | h | h | h | h | h | h | h | h | h | h | h | h <;>
    subst h <;> intro c arg o <;>
    first
      | (left
         simp only [handleSecurity, pureHandler, handleLIST_fst, handleRETR_fst, handleSTOR_fst,
           handleUSER, handlePASS, handleRNFR, handleRNTO, handleDELE, handleRMD, handleMKD,
           handleXMKD, handlePWD, handleQUIT, handlePORT, handlePASV, handleTYPE, handleSYST,
           closeDataConn_eq]
         repeat' split
         all_goals first
           | rfl
           | (rw [handleLIST_fst])
           | (rw [handleRETR_fst])
           | (rw [handleSTOR_fst]))
      | (simp only [handleSecurity, handleCWD, handleXCWD, handleCDUP]
         by_cases hid : c.identified = true
         · rw [if_pos hid]
           cases hs : o.stat with
           | ok isDir =>
             cases isDir with
             | true => right; exact ⟨by decide, hid, rfl, ⟨_, rfl⟩⟩
             | false => left; rfl
           | notExist => left; rfl
           | otherErr => left; rfl
         · rw [if_neg hid]
           left; rfl)

/-- Only `RNFR`, in an authenticated session, changes the stored rename
source. -/
theorem table_renameTempPath : ∀ p ∈ buildCommandMap,
    ∀ (c : FTPConn) (arg : Str) (o : Outcome),
    (p.2 c arg o).1.renameTempPath = c.renameTempPath ∨
      (p.1 = "RNFR".toList ∧ c.identified = true) := by
  intro p hp
  simp only [buildCommandMap, List.mem_cons, List.mem_singleton, List.not_mem_nil,
    or_false] at hp
  rcases hp with h | h | h | h | h | h | h | h | h | h | h | h | h | h | h | h | h | h | h | h <;>
    subst h <;> intro c arg o <;>
    first
      | (left
         simp only [handleSecurity, pureHandler, handleLIST_fst, handleRETR_fst, handleSTOR_fst,
           handleUSER, handlePASS, handleCWD, handleXCWD, handleCDUP, handleRNTO, handleDELE,
           handleRMD, handleMKD,
           handleXMKD, handlePWD, handleQUIT, handlePORT, handlePASV, handleTYPE, handleSYST,
           closeDataConn_eq]
         repeat' split
         all_goals first
           | rfl
           | (rw [handleLIST_fst])
           | (rw [handleRETR_fst])
           | (rw [handleSTOR_fst]))
      | (simp only [handleSecurity, pureHandler, handleRNFR]
         by_cases hid : c.identified = true
         · right; exact ⟨trivial, hid⟩
         · rw [if_neg hid]
           left; rfl)

theorem commands_none_of_not_key (verb : Str) (h : verb ∉ buildCommandMap.map Prod.fst) :
    commands verb = none := by
  unfold commands
  rw [List.lookup_eq_none_iff]
  intro p hp
  have : verb ≠ p.1 := fun e => h (e ▸ List.mem_map_of_mem Prod.fst hp)
  simpa using this

/-- A rendering of proper names is an absolute normalized path. -/
theorem renderAbs_normalized (rs : List Str) (hrs : NormalComps rs) :
    (renderAbs rs).head? = some '/' ∧
    (renderAbs rs = "/".toList ∨
      ∀ comp ∈ stringsSplit (renderAbs rs).tail '/',
        comp ≠ [] ∧ comp ≠ ".".toList ∧ comp ≠ "..".toList) ∧
    (renderAbs rs ≠ "/".toList → (renderAbs rs).getLast? ≠ some '/') := by
  have r1 : "/".toList = ['/'] := rfl
  refine ⟨renderAbs_head rs, ?_, ?_⟩
  · cases rs with
    | nil => left; rfl
    | cons w ws =>
      right
      rw [splitOn_renderAbs_tail w ws hrs]
      intro comp hcomp
      exact ⟨(hrs comp hcomp).1, (hrs comp hcomp).2.2.1, (hrs comp hcomp).2.2.2⟩
  · rw [r1]
    intro h
    exact renderAbs_last rs hrs (fun h' => h ((renderAbs_eq_root rs hrs).2 h'))

theorem table_currDir_normal : ∀ p ∈ buildCommandMap,
    ∀ (c : FTPConn) (arg : Str) (o : Outcome),
    (∃ rs, NormalComps rs ∧ c.currDir = renderAbs rs) →
    ∃ rs, NormalComps rs ∧ (p.2 c arg o).1.currDir = renderAbs rs := by
  intro p hp c arg o hP
  rcases table_currDir p hp c arg o with h | ⟨_, _, _, a, ha⟩
  · rw [h]; exact hP
  · obtain ⟨rs, _, e⟩ := hP
    have hc : c.currDir.head? = some '/' := by rw [e]; exact renderAbs_head rs
    obtain ⟨rs1, h1, e1, _⟩ := parsePath_shape c a hc
    exact ⟨rs1, h1, by rw [ha, e1]⟩

/-! ## The claims, continued -/

/-- Counterexample to C11 as stated: in a session that has logged in and
has processed no `RNFR`, `RNTO b` calls rename (from the empty path) and
replies 250. -/
theorem rnto_without_rnfr :
    (loop (NewFTPConn sampleConfig none)
      [("USER anonymous".toList, sampleOutcome), ("RNTO b".toList, sampleOutcome)]).2 =
      [Event.reply 230 "OK".toList, Event.rename [] "/srv/ftp/b".toList,
        Event.reply 250 "rename to /b".toList] := by
  decide

/-- Claim C11 as amended: in an authenticated session `RNTO` does not ask
for a staged source: it leaves the state as it is (the stored rename source
included) and calls rename exactly once, from the stored rename source to
the concrete path of its argument; `RNFR p1` calls no rename, and `RNTO p2`
right after it calls rename exactly once, from the concrete path of `p1` to
the concrete path of `p2`; the stored rename source is empty in a new
session and only an `RNFR` in an authenticated session changes it. -/
theorem rnto_uses_stored_source (c : FTPConn) (hid : c.identified = true) :
    (∀ arg o, (handleSecurity (pureHandler handleRNTO) c arg o).1 = c ∧
      renames (handleSecurity (pureHandler handleRNTO) c arg o).2 =
        [(c.renameTempPath, (parsePath c arg).2)]) ∧
    (∀ p1 p2 o1 o2,
      renames (handleSecurity (pureHandler handleRNFR) c p1 o1).2 = [] ∧
      renames (handleSecurity (pureHandler handleRNTO)
        (handleSecurity (pureHandler handleRNFR) c p1 o1).1 p2 o2).2 =
        [((parsePath c p1).2, (parsePath c p2).2)]) ∧
    (∀ config getwd, (NewFTPConn config getwd).renameTempPath = []) ∧
    (∀ (c1 : FTPConn) line o, (stepLine c1 line o).1.renameTempPath ≠ c1.renameTempPath →
      c1.identified = true ∧
      ∃ command arg, parseLine line = some (command, arg) ∧
        stringsToUpper command = "RNFR".toList) := by
  refine ⟨fun arg o => ?_, fun p1 p2 o1 o2 => ?_, fun _ _ => rfl, fun c1 line o hne => ?_⟩
  · simp only [handleSecurity, hid, if_true, pureHandler, handleRNTO, sendMsg]
    constructor <;> trivial
  · simp only [handleSecurity, hid, if_true, pureHandler, handleRNFR, handleRNTO, sendMsg]
    constructor <;> trivial
  · obtain ⟨command, arg, hp, h | ⟨h, hc, e⟩⟩ := stepLine_cases c1 line o
    · rw [h.2] at hne; exact absurd rfl hne
    · rw [e] at hne
      rcases table_renameTempPath _ (commands_mem _ _ hc) c1 arg o with h1 | h1
      · exact absurd h1 hne
      · exact ⟨h1.2, command, arg, hp, h1.1⟩

/-- Witness of C11: `RNFR a` then `RNTO /x/b`. -/
theorem rnto_uses_stored_source_witness :
    renames (handleSecurity (pureHandler handleRNTO)
      (handleSecurity (pureHandler handleRNFR) loggedIn "a".toList sampleOutcome).1
      "/x/b".toList sampleOutcome).2 = [("a".toList, "x/b".toList)] :=
  ((rnto_uses_stored_source loggedIn rfl).2.1 "a".toList "/x/b".toList sampleOutcome
    sampleOutcome).2.trans (by decide)

/-- Claim C12 (data connection lifecycle): every state reached from a new
session has no data connection; a turn of the loop that starts without a
data connection ends without one, and its trace keeps to the discipline of
`dataSockets` (never a second socket while one is open, every socket that
was obtained is closed at the end), whatever the environment answers;
`LIST`, `RETR` and `STOR` do so from any state, also one that holds an open
data connection; and `dataConnConn` closes an open data connection before
it accepts or dials. -/
theorem data_connection_lifecycle :
    (∀ config getwd input, (loop (NewFTPConn config getwd) input).1.dataConn = none) ∧
    (∀ (c : FTPConn) line o, c.dataConn = none →
      (stepLine c line o).1.dataConn = none ∧
      dataSockets o none (stepLine c line o).2.1 = some none) ∧
    (∀ (c : FTPConn) arg o,
      ((handleLIST c arg o).1.dataConn = none ∧
        dataSockets o c.dataConn (handleLIST c arg o).2 = some none) ∧
      ((handleRETR c arg o).1.dataConn = none ∧
        dataSockets o c.dataConn (handleRETR c arg o).2 = some none) ∧
      ((handleSTOR c arg o).1.dataConn = none ∧
        dataSockets o c.dataConn (handleSTOR c arg o).2 = some none)) ∧
    (∀ (c : FTPConn) o,
      dataSockets o c.dataConn (dataConnConn c o).2.1 = some (dataConnConn c o).1.dataConn) := by
  refine ⟨fun config getwd input => ?_, fun c line o hd => ⟨?_, ?_⟩, fun c arg o => ?_,
    dataConnConn_sockets⟩
  · exact loop_preserves (fun c => c.dataConn = none)
      (stepLine_preserves _ table_dataConn) input _ rfl
  · exact stepLine_preserves (fun c => c.dataConn = none) table_dataConn c line o hd
  · obtain ⟨command, arg, _, h | ⟨h, hc, e⟩⟩ := stepLine_cases c line o
    · rw [h.2]; rfl
    · rw [e]; exact table_sockets _ (commands_mem _ _ hc) c arg o hd
  · exact ⟨⟨by rw [handleLIST_fst], handleLIST_sockets c arg o⟩,
      ⟨by rw [handleRETR_fst], handleRETR_sockets c arg o⟩,
      ⟨by rw [handleSTOR_fst], handleSTOR_sockets c arg o⟩⟩

/-- Witness of C12: a passive `LIST` that transfers one line; a trace that
accepts twice is rejected by the monitor. -/
theorem data_connection_lifecycle_witness :
    (handleLIST passiveSession [] transferOutcome).2 =
      [Event.accept ⟨1, 50000⟩, Event.reply 125 "OK".toList, Event.readDir ".".toList,
        Event.dataWrite 7 "-rw------  1 0  0  3  01 02 15:04 f\r\n".toList,
        Event.reply 226 "Limit".toList, Event.dataClose 7] ∧
    dataSockets transferOutcome none (handleLIST passiveSession [] transferOutcome).2 =
      some none ∧
    dataSockets transferOutcome none [Event.accept ⟨1, 50000⟩, Event.accept ⟨1, 50000⟩] = none :=
  ⟨by decide, (data_connection_lifecycle.2.2.1 passiveSession [] transferOutcome).1.2,
    by decide⟩

/-- Counterexample to C13 as stated: after `USER anonymous`, a successful
`PASV` and a successful `PORT`, the session holds both the passive listener
and the active target; after a successful `PORT` and then a successful
`PASV` it holds both as well. -/
theorem listener_and_target_both_held :
    (loop (NewFTPConn sampleConfig none)
      [("USER anonymous".toList, sampleOutcome), ("PASV".toList, passiveOutcome),
        ("PORT 10,0,0,1,4,1".toList, sampleOutcome)]).1.listener = some ⟨1, 50000⟩ ∧
    (loop (NewFTPConn sampleConfig none)
      [("USER anonymous".toList, sampleOutcome), ("PASV".toList, passiveOutcome),
        ("PORT 10,0,0,1,4,1".toList, sampleOutcome)]).1.dataHost = "10.0.0.1".toList ∧
    (loop (NewFTPConn sampleConfig none)
      [("USER anonymous".toList, sampleOutcome), ("PASV".toList, passiveOutcome),
        ("PORT 10,0,0,1,4,1".toList, sampleOutcome)]).1.dataPort = 1025 ∧
    replies (loop (NewFTPConn sampleConfig none)
      [("USER anonymous".toList, sampleOutcome), ("PASV".toList, passiveOutcome),
        ("PORT 10,0,0,1,4,1".toList, sampleOutcome)]).2 =
      [(230, "OK".toList), (227, "Entering Passive Mode (10,0,0,1,195,80)".toList),
        (200, "OK".toList)] ∧
    (loop (NewFTPConn sampleConfig none)
      [("USER anonymous".toList, sampleOutcome), ("PORT 10,0,0,1,4,1".toList, sampleOutcome),
        ("PASV".toList, passiveOutcome)]).1.listener = some ⟨1, 50000⟩ ∧
    (loop (NewFTPConn sampleConfig none)
      [("USER anonymous".toList, sampleOutcome), ("PORT 10,0,0,1,4,1".toList, sampleOutcome),
        ("PASV".toList, passiveOutcome)]).1.dataHost = "10.0.0.1".toList ∧
    (loop (NewFTPConn sampleConfig none)
      [("USER anonymous".toList, sampleOutcome), ("PORT 10,0,0,1,4,1".toList, sampleOutcome),
        ("PASV".toList, passiveOutcome)]).1.dataPort = 1025 := by
  decide

/-- Claim C13 as amended: in an authenticated session a successful `PASV`
closes a previous listener, installs the new one, sets `pasv` and changes
nothing else, so the recorded target stays; a successful `PORT` records the
target and clears `pasv`; and `dataConnConn` dials the recorded target when
`pasv` is false and accepts on the listener when `pasv` is true. -/
theorem mode_flag_selects (c : FTPConn) (arg : Str) (o : Outcome) (hid : c.identified = true) :
    (∀ ip l, o.externalIP = some ip → o.listen = some l →
      handleSecurity handlePASV c arg o =
        ({ c with listener := some l, pasv := true },
          (match c.listener with
            | some l0 => [Event.listenerClose l0]
            | none => []) ++
          [Event.externalIP, Event.listen (ip ++ ":0".toList),
            Event.reply 227 (pasvMsg ip l.port)])) ∧
    (∀ h1 h2 h3 h4 f5 f6 p1 p2, stringsSplit arg ',' = [h1, h2, h3, h4, f5, f6] →
      Atoi f5 = some p1 → Atoi f6 = some p2 →
      (handleSecurity (pureHandler handlePORT) c arg o).1.pasv = false ∧
      (handleSecurity (pureHandler handlePORT) c arg o).1.dataHost =
        h1 ++ '.' :: h2 ++ '.' :: h3 ++ '.' :: h4 ∧
      (handleSecurity (pureHandler handlePORT) c arg o).1.dataPort =
        wrapInt (wrapInt (p1 * 256) + p2)) ∧
    (c.pasv = false →
      (dataConnConn c o).2.1 =
        (match c.dataConn with
          | some d => [Event.dataClose d]
          | none => []) ++ [Event.dial (c.dataHost ++ ':' :: itoa c.dataPort)]) ∧
    (∀ l, c.pasv = true → c.listener = some l →
      (dataConnConn c o).2.1 =
        (match c.dataConn with
          | some d => [Event.dataClose d]
          | none => []) ++ [Event.accept l]) := by
  refine ⟨fun ip l h1 h2 => ?_, ?_, fun hp => ?_, fun l hp hl => ?_⟩
  · simp only [handleSecurity, hid, if_true, handlePASV, h1, h2, sendMsg]
    cases c.listener <;> simp [hid]
  · intro h1 h2 h3 h4 f5 f6 p1 p2 hs h5 h6
    simp only [handleSecurity, hid, if_true, pureHandler, handlePORT, hs]
    simp [h5, h6, stringsJoin, List.intercalate]
  · rw [dataConnConn_eq, closeDataConn_snd]
    cases hd : o.dial <;> simp [hp]
  · rw [dataConnConn_eq, closeDataConn_snd]
    cases ha : o.accept <;> simp [hp, hl]

/-- Witness of C13: `PASV` in a session with a recorded target. -/
theorem mode_flag_selects_witness :
    handleSecurity handlePASV activeSession [] passiveOutcome =
      ({ activeSession with listener := some ⟨1, 50000⟩, pasv := true },
        [Event.externalIP, Event.listen "10.0.0.1:0".toList,
          Event.reply 227 "Entering Passive Mode (10,0,0,1,195,80)".toList]) ∧
    ({ activeSession with listener := some ⟨1, 50000⟩, pasv := true } : FTPConn).dataHost =
      "10.0.0.9".toList :=
  ⟨((mode_flag_selects activeSession [] passiveOutcome rfl).1 "10.0.0.1".toList ⟨1, 50000⟩
    rfl rfl).trans (by decide), rfl⟩

/-- Claim C14 (unknown verb): for every state and every line whose
upper-cased command is none of the twenty keys of the command table, the
turn of the loop leaves the state unchanged, emits the single reply
`500 Command Not Found` and goes on with the lines that follow. -/
theorem unknown_verb (c : FTPConn) (line command arg : Str) (o : Outcome)
    (hp : parseLine line = some (command, arg))
    (hv : stringsToUpper command ∉ ["USER".toList, "PASS".toList, "CWD".toList, "XCWD".toList,
      "CDUP".toList, "RNFR".toList, "RNTO".toList, "DELE".toList, "RMD".toList, "MKD".toList,
      "XMKD".toList, "PWD".toList, "QUIT".toList, "PORT".toList, "PASV".toList, "TYPE".toList,
      "RETR".toList, "STOR".toList, "SYST".toList, "LIST".toList]) :
    stepLine c line o = (c, [Event.reply 500 "Command Not Found".toList], true) ∧
    (∀ rest, loop c ((line, o) :: rest) =
      ((loop c rest).1, Event.reply 500 "Command Not Found".toList :: (loop c rest).2)) ∧
    wire 500 "Command Not Found".toList = "500 Command Not Found\r\n".toList := by
  have hk : commands (stringsToUpper command) = none :=
    commands_none_of_not_key _ (by
      have e : buildCommandMap.map Prod.fst = ["USER".toList, "PASS".toList, "CWD".toList,
        "XCWD".toList, "CDUP".toList, "RNFR".toList, "RNTO".toList, "DELE".toList,
        "RMD".toList, "MKD".toList, "XMKD".toList, "PWD".toList, "QUIT".toList,
        "PORT".toList, "PASV".toList, "TYPE".toList, "RETR".toList, "STOR".toList,
        "SYST".toList, "LIST".toList] := rfl
      rw [e]
      exact hv)
  have hs : stepLine c line o = (c, [Event.reply 500 "Command Not Found".toList], true) := by
    simp only [stepLine, hp, hk, sendMsg]
  refine ⟨hs, fun rest => ?_, by decide⟩
  simp only [loop, hs]
  rfl

/-- Witness of C14: the line `noop now`. -/
theorem unknown_verb_witness :
    stepLine loggedIn "noop now".toList sampleOutcome =
      (loggedIn, [Event.reply 500 "Command Not Found".toList], true) :=
  (unknown_verb loggedIn "noop now".toList "noop".toList "now".toList sampleOutcome (by decide)
    (by decide)).1

/-- Claim C15 (empty argument): when the working directory is absolute and
clean, the empty argument resolves to the working directory as virtual path
and to the home directory joined with it as concrete path, for every home
directory; from the root, with a clean non-empty home directory, the
concrete path is the home directory itself. -/
theorem parsePath_empty (c : FTPConn)
    (hc : c.currDir.head? = some '/') (hn : Clean c.currDir = c.currDir) :
    parsePath c [] = (c.currDir, Join [c.homeDir, c.currDir]) ∧
    (c.currDir = "/".toList → c.homeDir ≠ [] → Clean c.homeDir = c.homeDir →
      (parsePath c []).2 = c.homeDir) := by
  have h0 : NormalComps ([] : List Str) := by intro w hw; simp at hw
  have hcs : NormalComps (normComps [] c.currDir) := normComps_normal _ _ h0
  have ec : c.currDir = renderAbs (normComps [] c.currDir) := by
    rw [← Clean_rooted _ hc, hn]
  have hne : c.currDir ≠ [] := by intro h; rw [h] at hc; simp at hc
  have hh : (c.currDir ++ '/' :: ['.']).head? = some '/' := by
    cases hcd : c.currDir with
    | nil => exact absurd hcd hne
    | cons x t => rw [hcd] at hc; simpa using hc
  have e1 : Join [c.currDir, ['.']] = c.currDir := by
    rw [Join_two _ _ hne, Clean_rooted _ hh]
    conv_lhs => rw [ec]
    rw [normComps_renderAbs _ hcs _ (Or.inr ⟨_, rfl⟩) [], normComps_slash, List.nil_append]
    have := normComps_word (normComps [] c.currDir) ['.'] [] (by simp) (Or.inl rfl)
    rw [List.append_nil] at this
    rw [this, normComps_nil]
    have hp : pushComp (normComps [] c.currDir) ['.'] = normComps [] c.currDir := by
      simp [pushComp]
    rw [hp]
    exact ec.symm
  have hdot : c.currDir ≠ ['.'] := by intro h; rw [h] at hc; simp at hc
  have e2 : parsePath c [] = (c.currDir, Join [c.homeDir, c.currDir]) := by
    have hu : parsePath c [] =
        (if Clean (Join [c.currDir, ['.']]) = ['.'] then ['/']
          else Clean (Join [c.currDir, ['.']]),
          Join [c.homeDir, Clean (Join [c.currDir, ['.']])]) := rfl
    rw [hu, e1, hn, if_neg hdot]
  refine ⟨e2, fun hroot hh1 hh2 => ?_⟩
  rw [e2]
  show Join [c.homeDir, c.currDir] = c.homeDir
  rw [Join_two _ _ hh1, hroot]
  have : c.homeDir ++ '/' :: "/".toList = c.homeDir ++ ['/', '/'] := rfl
  rw [this, Clean_trailing _ _ hh1 (by simp), hh2]

/-- Witness of C15: the relative home directory `data`. -/
theorem parsePath_empty_witness :
    parsePath { NewFTPConn [] none with homeDir := "data".toList, currDir := "/pub/x".toList } []
      = ("/pub/x".toList, "data/pub/x".toList) ∧
    (parsePath { NewFTPConn [] none with homeDir := "data".toList } []).2 = "data".toList :=
  ⟨(parsePath_empty
      { NewFTPConn [] none with homeDir := "data".toList, currDir := "/pub/x".toList }
      (by decide) (by decide)).1.trans (by decide),
    (parsePath_empty { NewFTPConn [] none with homeDir := "data".toList } (by decide)
      (by decide)).2 rfl (by decide) (by decide)⟩

/-- Claim C16 (`QUIT`): in an authenticated session the table entry of
`QUIT` closes an open data connection, clears `username`, `identified` and
`running`, and replies 221; the turn of the loop on such a line does not go
on, and the loop returns without handling the lines that follow. -/
theorem quit_ends_session (c : FTPConn) (arg : Str) (o : Outcome)
    (hid : c.identified = true) :
    commands "QUIT".toList = some (handleSecurity (pureHandler handleQUIT)) ∧
    handleSecurity (pureHandler handleQUIT) c arg o =
      ({ c with dataConn := none, running := false, username := [], identified := false },
        (match c.dataConn with
          | some d => [Event.dataClose d]
          | none => []) ++ [Event.reply 221 "OK".toList]) ∧
    (∀ line command rest, parseLine line = some (command, arg) →
      stringsToUpper command = "QUIT".toList →
      (stepLine c line o).2.2 = false ∧
      loop c ((line, o) :: rest) = handleSecurity (pureHandler handleQUIT) c arg o) := by
  have hq : handleSecurity (pureHandler handleQUIT) c arg o =
      ({ c with dataConn := none, running := false, username := [], identified := false },
        (match c.dataConn with
          | some d => [Event.dataClose d]
          | none => []) ++ [Event.reply 221 "OK".toList]) := by
    simp only [handleSecurity, hid, if_true, pureHandler, handleQUIT, closeDataConn_eq, sendMsg]
  refine ⟨rfl, hq, ?_⟩
  intro line command rest hp hu
  have hc : commands (stringsToUpper command) =
      some (handleSecurity (pureHandler handleQUIT)) := by rw [hu]; rfl
  have hs : stepLine c line o =
      ((handleSecurity (pureHandler handleQUIT) c arg o).1,
        (handleSecurity (pureHandler handleQUIT) c arg o).2, false) := by
    simp only [stepLine, hp, hc]
    rw [hq]
    simp
  refine ⟨by rw [hs], ?_⟩
  simp only [loop, hs]

/-- Witness of C16: `quit` with an open data connection, followed by a
line that is not handled. -/
theorem quit_ends_session_witness :
    loop { loggedIn with dataConn := some 7 }
        [("quit".toList, sampleOutcome), ("PWD".toList, sampleOutcome)] =
      ({ loggedIn with dataConn := none, running := false, username := [], identified := false },
        [Event.dataClose 7, Event.reply 221 "OK".toList]) :=
  (((quit_ends_session { loggedIn with dataConn := some 7 } [] sampleOutcome rfl).2.2
    "quit".toList "quit".toList [("PWD".toList, sampleOutcome)] (by decide) (by decide)).2).trans
    (by decide)

/-- Claim C17, the behaviour of the code where it departs from the claim:
after the single line `PASS` a new session is identified although its user
name is no key of the credential table, and its home directory is empty;
after `USER anonymous` and `USER bob` the session is identified as `bob`
with the home directory of the anonymous account, not the one of the record
of `bob`. -/
theorem identified_without_record :
    (loop (NewFTPConn sampleConfig (some "/srv".toList)) [("PASS".toList, sampleOutcome)]).1.identified
      = true ∧
    (NewFTPConn sampleConfig (some "/srv".toList)).config.lookup
      (loop (NewFTPConn sampleConfig (some "/srv".toList))
        [("PASS".toList, sampleOutcome)]).1.username = none ∧
    (loop (NewFTPConn sampleConfig (some "/srv".toList)) [("PASS".toList, sampleOutcome)]).1.homeDir
      = [] ∧
    (loop (NewFTPConn sampleConfig (some "/srv".toList))
      [("USER anonymous".toList, sampleOutcome), ("USER bob".toList, sampleOutcome)]).1.identified
      = true ∧
    (loop (NewFTPConn sampleConfig (some "/srv".toList))
      [("USER anonymous".toList, sampleOutcome), ("USER bob".toList, sampleOutcome)]).1.username
      = "bob".toList ∧
    (loop (NewFTPConn sampleConfig (some "/srv".toList))
      [("USER anonymous".toList, sampleOutcome), ("USER bob".toList, sampleOutcome)]).1.homeDir
      = "/srv/ftp".toList ∧
    sampleConfig.lookup "bob".toList =
      some { Password := "secret".toList, HomeDir := "/home/bob".toList } := by
  decide

/-- Claim C18, the behaviour of the code where it departs from the claim:
after a successful `PASV` and a `PASV` whose `net.Listen` fails the session
is still running with `pasv` set and no listener, and the next `LIST`
calls `Accept` on the absent listener: the session ends in a crash, without
a reply to `LIST` and without handling the line that follows. -/
theorem passive_without_listener :
    (loop (NewFTPConn sampleConfig none)
      [("USER anonymous".toList, sampleOutcome), ("PASV".toList, passiveOutcome),
        ("PASV".toList, listenFails)]).1.pasv = true ∧
    (loop (NewFTPConn sampleConfig none)
      [("USER anonymous".toList, sampleOutcome), ("PASV".toList, passiveOutcome),
        ("PASV".toList, listenFails)]).1.listener = none ∧
    (loop (NewFTPConn sampleConfig none)
      [("USER anonymous".toList, sampleOutcome), ("PASV".toList, passiveOutcome),
        ("PASV".toList, listenFails)]).1.running = true ∧
    (start (NewFTPConn sampleConfig none)
      [("USER anonymous".toList, sampleOutcome), ("PASV".toList, passiveOutcome),
        ("PASV".toList, listenFails), ("LIST".toList, sampleOutcome),
        ("PWD".toList, sampleOutcome)]).2 =
      [Event.reply 220 "Welcome to Ftp.go FTP".toList,
        Event.reply 230 "OK".toList,
        Event.externalIP, Event.listen "10.0.0.1:0".toList,
        Event.reply 227 "Entering Passive Mode (10,0,0,1,195,80)".toList,
        Event.listenerClose ⟨1, 50000⟩, Event.externalIP, Event.listen "10.0.0.1:0".toList,
        Event.logErr, Event.reply 500 "passive mode error".toList,
        Event.crash] := by
  decide

/-- Claim C19 (working directory): a new session starts at `/`; in every
state reached from a new session, under any answers of the environment,
the working directory starts with `/`, is `/` or has only elements that are
neither empty nor `.` nor `..`, and ends in a slash only if it is `/`; a
turn of the loop changes it only for `CWD`, `XCWD` or `CDUP` in an
authenticated session when the target is reported as a directory, in which
case `CWD` sets it to the virtual path and replies 250; and when the target
is missing, is not a directory or cannot be examined, the three commands
leave the state unchanged and reply 500. -/
theorem currDir_invariant :
    (∀ config getwd, (NewFTPConn config getwd).currDir = "/".toList) ∧
    (∀ config getwd input,
      (loop (NewFTPConn config getwd) input).1.currDir.head? = some '/' ∧
      ((loop (NewFTPConn config getwd) input).1.currDir = "/".toList ∨
        ∀ comp ∈ stringsSplit (loop (NewFTPConn config getwd) input).1.currDir.tail '/',
          comp ≠ [] ∧ comp ≠ ".".toList ∧ comp ≠ "..".toList) ∧
      ((loop (NewFTPConn config getwd) input).1.currDir ≠ "/".toList →
        (loop (NewFTPConn config getwd) input).1.currDir.getLast? ≠ some '/')) ∧
    (∀ (c : FTPConn) line o, (stepLine c line o).1.currDir ≠ c.currDir →
      c.identified = true ∧ o.stat = StatResult.ok true ∧
      ∃ command arg, parseLine line = some (command, arg) ∧
        stringsToUpper command ∈ ["CWD".toList, "XCWD".toList, "CDUP".toList]) ∧
    (∀ (c : FTPConn) arg o, c.identified = true → o.stat = StatResult.ok true →
      handleSecurity handleCWD c arg o =
        ({ c with currDir := (parsePath c arg).1 },
          [Event.stat (parsePath c arg).2,
            Event.reply 250 "Working directory changed".toList])) ∧
    (∀ (c : FTPConn) arg o, c.identified = true → o.stat ≠ StatResult.ok true →
      ((handleSecurity handleCWD c arg o).1 = c ∧
        replies (handleSecurity handleCWD c arg o).2 =
          [(500, "Change directory failed!".toList)]) ∧
      ((handleSecurity handleXCWD c arg o).1 = c ∧
        replies (handleSecurity handleXCWD c arg o).2 =
          [(500, "Change directory failed!".toList)]) ∧
      ((handleSecurity handleCDUP c arg o).1 = c ∧
        replies (handleSecurity handleCDUP c arg o).2 =
          [(500, "Change directory failed!".toList)])) := by
  refine ⟨fun _ _ => rfl, fun config getwd input => ?_, fun c line o hne => ?_,
    fun c arg o hid hs => ?_, fun c arg o hid hs => ?_⟩
  · have h0 : ∃ rs, NormalComps rs ∧ (NewFTPConn config getwd).currDir = renderAbs rs :=
      ⟨[], by intro w hw; simp at hw, rfl⟩
    obtain ⟨rs, hrs, e⟩ := loop_preserves (fun c => ∃ rs, NormalComps rs ∧ c.currDir = renderAbs rs)
      (stepLine_preserves _ table_currDir_normal) input _ h0
    rw [e]
    exact renderAbs_normalized rs hrs
  · obtain ⟨command, arg, hp, h | ⟨h, hc, e⟩⟩ := stepLine_cases c line o
    · rw [h.2] at hne; exact absurd rfl hne
    · rw [e] at hne
      rcases table_currDir _ (commands_mem _ _ hc) c arg o with h1 | ⟨h1, h2, h3, _⟩
      · exact absurd h1 hne
      · exact ⟨h2, h3, command, arg, hp, h1⟩
  · simp only [handleSecurity, hid, if_true, handleCWD, hs, sendMsg]
  · have key : ∀ a, (handleCWD c a o).1 = c ∧
        replies (handleCWD c a o).2 = [(500, "Change directory failed!".toList)] := by
      intro a
      unfold handleCWD
      cases h : o.stat with
      | ok isDir =>
        cases isDir with
        | true => exact absurd h hs
        | false => exact ⟨rfl, rfl⟩
      | notExist => exact ⟨rfl, rfl⟩
      | otherErr => exact ⟨rfl, rfl⟩
    simp only [handleSecurity, hid, if_true, handleXCWD, handleCDUP]
    exact ⟨key arg, key arg, key _⟩

/-- Witness of C19: a session that changes directory three times. -/
theorem currDir_invariant_witness :
    (loop (NewFTPConn sampleConfig none)
      [("USER anonymous".toList, sampleOutcome),
        ("CWD a/../b/./c/".toList, { sampleOutcome with stat := StatResult.ok true }),
        ("CDUP".toList, { sampleOutcome with stat := StatResult.ok true }),
        ("CWD ../../..".toList, { sampleOutcome with stat := StatResult.ok false })]).1.currDir
      = "/b".toList ∧
    (loop (NewFTPConn sampleConfig none)
      [("USER anonymous".toList, sampleOutcome),
        ("CWD a/../b/./c/".toList, { sampleOutcome with stat := StatResult.ok true }),
        ("CDUP".toList, { sampleOutcome with stat := StatResult.ok true }),
        ("CWD ../../..".toList, { sampleOutcome with stat := StatResult.ok false })]).1.currDir.head?
      = some '/' ∧
    (handleSecurity handleCWD loggedIn "x".toList sampleOutcome).1 = loggedIn :=
  ⟨by decide, (currDir_invariant.2.1 sampleConfig none _).1,
    ((currDir_invariant.2.2.2.2 loggedIn "x".toList sampleOutcome rfl (by decide)).1).1⟩

/-- Claim C20, the behaviour of the code where it departs from the claim:
in an authenticated session, whenever `os.Stat` does not report the target
missing, `DELE` and `RMD` call remove and reply 250; `RNTO` calls rename
and replies 250; and when `os.Stat` reports the target missing `MKD` calls
`MkdirAll` and replies 257.  The replies do not depend on what remove,
rename and `MkdirAll` return (`removeOk`, `renameOk`, `mkdirOk`). -/
theorem replies_ignore_result (c : FTPConn) (arg : Str) (o : Outcome)
    (hid : c.identified = true) :
    (o.stat ≠ StatResult.notExist →
      handleSecurity handleDELE c arg o =
        (c, [Event.stat (parsePath c arg).2, Event.remove (parsePath c arg).2,
          Event.reply 250 "File deleted".toList]) ∧
      handleSecurity handleRMD c arg o =
        (c, [Event.stat (parsePath c arg).2, Event.remove (parsePath c arg).2,
          Event.reply 250 "OK".toList])) ∧
    handleSecurity (pureHandler handleRNTO) c arg o =
      (c, [Event.rename c.renameTempPath (parsePath c arg).2,
        Event.reply 250 ("rename to ".toList ++ (parsePath c arg).1)]) ∧
    (o.stat = StatResult.notExist →
      handleSecurity handleMKD c arg o =
        (c, [Event.stat (parsePath c arg).2, Event.mkdirAll (parsePath c arg).2,
          Event.reply 257 ('"' :: arg ++ "\" directory created".toList)])) := by
  refine ⟨fun h => ⟨?_, ?_⟩, ?_, fun h => ?_⟩
  · simp only [handleSecurity, hid, if_true, handleDELE, if_neg h, sendMsg]
  · simp only [handleSecurity, hid, if_true, handleRMD, if_neg h, sendMsg]
  · simp only [handleSecurity, hid, if_true, pureHandler, handleRNTO, sendMsg]
  · simp only [handleSecurity, hid, if_true, handleMKD, if_pos h, sendMsg]

/-- Witness of C20: remove, rename and `MkdirAll` fail and the replies are
250, 250 and 257. -/
theorem replies_ignore_result_witness :
    failingOutcome.removeOk = false ∧ failingOutcome.renameOk = false ∧
    replies (handleSecurity handleDELE loggedIn "f".toList failingOutcome).2 =
      [(250, "File deleted".toList)] ∧
    replies (handleSecurity (pureHandler handleRNTO) loggedIn "g".toList failingOutcome).2 =
      [(250, "rename to /g".toList)] ∧
    { sampleOutcome with mkdirOk := false }.mkdirOk = false ∧
    replies (handleSecurity handleMKD loggedIn "d".toList
      { sampleOutcome with mkdirOk := false }).2 = [(257, "\"d\" directory created".toList)] :=
  ⟨rfl, rfl,
    by rw [((replies_ignore_result loggedIn "f".toList failingOutcome rfl).1 (by decide)).1]; rfl,
    by rw [(replies_ignore_result loggedIn "g".toList failingOutcome rfl).2.1]; decide,
    rfl,
    by rw [(replies_ignore_result loggedIn "d".toList { sampleOutcome with mkdirOk := false }
      rfl).2.2 rfl]; rfl⟩

end FtpGo
